import Mathlib

/-! Shallow embedding of the orchestration core of the AWS cost-estimate
repository (service registry, workflow planner, orchestration loops,
rate limiter and retry policy), together with theorems settling the
specification claims against the code. -/

namespace AWSCost

/-- Python-style configuration values (the subset the handlers use). -/
inductive Value where
  | vStr (s : String)
  | vInt (n : Int)
  | vNone
  deriving DecidableEq, Repr

/-- Python truthiness for the values above (`not config.get(k)` tests). -/
def truthy : Value → Bool
  | .vStr s => s != ""
  | .vInt n => n != 0
  | .vNone => false

/-- Digit-string accumulator for `pyIntOfString`. -/
def digitsToNat (acc : Nat) : List Char → Option Nat
  | [] => some acc
  | c :: cs => if c.isDigit then digitsToNat (acc * 10 + (c.toNat - 48)) cs else none

/-- Python `int(str)`: an optional sign followed by decimal digits parses,
anything else raises ValueError (`none`). (Python also tolerates
surrounding whitespace and underscore separators; the configurations in
this code base use plain digit strings.) -/
def pyIntOfString (s : String) : Option Int :=
  match s.data with
  | [] => none
  | '-' :: cs => if cs.isEmpty then none else (digitsToNat 0 cs).map (fun n => -(n : Int))
  | '+' :: cs => if cs.isEmpty then none else (digitsToNat 0 cs).map Int.ofNat
  | cs => (digitsToNat 0 cs).map Int.ofNat

/-- Python `int(x)` on a value; `none` models the ValueError/TypeError path. -/
def pyToInt : Value → Option Int
  | .vStr s => pyIntOfString s
  | .vInt n => some n
  | .vNone => none

/-- A Python dict with string keys, as an insertion-ordered association list. -/
abbrev Dict (α : Type) : Type := List (String × α)

/-- `d.get(k)` -/
def dget {α : Type} (d : Dict α) (k : String) : Option α :=
  (List.find? (fun p => p.1 == k) d).map Prod.snd

/-- `d.get(k, default)` -/
def dgetD {α : Type} (d : Dict α) (k : String) (v : α) : α :=
  (dget d k).getD v

/-- `k in d` -/
def dmem {α : Type} (d : Dict α) (k : String) : Bool :=
  List.any d (fun p => p.1 == k)

/-- `d[k] = v` on a Python dict: overwrite in place if present, else append. -/
def dset {α : Type} (d : Dict α) (k : String) (v : α) : Dict α :=
  if dmem d k then List.map (fun p => if p.1 == k then (p.1, v) else p) d
  else d ++ [(k, v)]

/-- User / service configuration maps (`Dict[str, Any]` in the source). -/
abbrev Config : Type := Dict Value

/-- A service handler: the data and behaviour of `BaseServiceHandler`
(`get_service_name`, `get_search_terms`, `get_service_category`,
`get_default_config`, `get_timeout_seconds`, `get_complexity_score`,
`validate_config`, `get_service_instructions`). -/
structure Handler where
  service_name : String
  search_terms : List String
  category : String
  default_config : Config
  timeout_seconds : Nat
  complexity_score : Nat
  validate_config : Config → List String
  service_instructions : Config → String

/-- `ServiceRegistry`: the `_services` dict and the `_categories` dict. -/
structure ServiceRegistry where
  services : Dict Handler
  categories : Dict (List String)

/-- `ServiceRegistry()__init__` -/
def emptyRegistry : ServiceRegistry := ⟨[], []⟩

/-- `d[cat].append(k)`, creating `d[cat] = []` first when absent: the
category-index update shared by `register_service` and the grouping loop
of `get_workflow_plan`. -/
def catAppend (d : Dict (List String)) (cat : String) (k : String) :
    Dict (List String) :=
  let d1 := if dmem d cat then d else d ++ [(cat, [])]
  List.map (fun p => if p.1 == cat then (p.1, p.2 ++ [k]) else p) d1

/-- `ServiceRegistry.register_service`: overwrites `_services[service_type]`
and appends `service_type` to `_categories[handler.category]`. -/
def register_service (r : ServiceRegistry) (service_type : String) (h : Handler) :
    ServiceRegistry :=
  { services := dset r.services service_type h
    categories := catAppend r.categories h.category service_type }

/-- `ServiceRegistry.get_handler` -/
def get_handler (r : ServiceRegistry) (service_type : String) : Option Handler :=
  dget r.services service_type

/-- `ServiceRegistry.get_all_services` -/
def get_all_services (r : ServiceRegistry) : List String :=
  List.map Prod.fst r.services

/-- `ServiceRegistry.get_services_by_category` -/
def get_services_by_category (r : ServiceRegistry) (category : String) : List String :=
  dgetD r.categories category []

/-- `ServiceRegistry.validate_service_config` -/
def validate_service_config (r : ServiceRegistry) (service_type : String)
    (config : Config) : List String :=
  match get_handler r service_type with
  | none => ["Unknown service type: " ++ service_type]
  | some h => h.validate_config config

/-- The `WorkflowPlan` dict built by `get_workflow_plan`. -/
structure WorkflowPlan where
  services : List String
  total_estimated_time : Nat
  complexity_score : Nat
  service_order : List String
  category_groups : Dict (List String)
  average_complexity : ℚ

/-- One iteration of the grouping loop in `get_workflow_plan`:
`plan.category_groups[category].append(service_type)` (creating the
entry if absent). -/
def addToGroups (groups : Dict (List String)) (cat : String) (key : String) :
    Dict (List String) :=
  catAppend groups cat key

/-- Accumulator of the first loop of `get_workflow_plan`: the category
groups plus the running `total_estimated_time` and `complexity_score`. -/
structure GroupState where
  groups : Dict (List String)
  time : Nat
  cx : Nat

/-- One step of the first loop of `get_workflow_plan`: services without a
registered handler are skipped. -/
def planStep (r : ServiceRegistry) (st : GroupState) (service_type : String) :
    GroupState :=
  match get_handler r service_type with
  | some h =>
      ⟨addToGroups st.groups h.category service_type,
        st.time + h.timeout_seconds, st.cx + h.complexity_score⟩
  | none => st

/-- The fixed category priority list of `get_workflow_plan`. -/
def priority_order : List String :=
  ["networking", "compute", "storage", "database", "analytics", "ml", "security"]

/-- `ServiceRegistry.get_workflow_plan`: group by category, emit the
priority categories in order, then append the remaining services in
request order without duplication. -/
def get_workflow_plan (r : ServiceRegistry) (services : List String) : WorkflowPlan :=
  let st := List.foldl (planStep r) ⟨[], 0, 0⟩ services
  let afterPriority := List.foldl
    (fun acc cat => if dmem st.groups cat then acc ++ dgetD st.groups cat [] else acc)
    [] priority_order
  let ordered := List.foldl
    (fun acc s => if s ∈ acc then acc else acc ++ [s]) afterPriority services
  { services := services
    total_estimated_time := st.time
    complexity_score := st.cx
    service_order := ordered
    category_groups := st.groups
    average_complexity :=
      if services.isEmpty then 0 else (st.cx : ℚ) / (services.length : ℚ) }

/-- `{**d, **c}`: keys of `d` in order (values overridden by `c`), then the
keys of `c` not in `d`, in order. -/
def dictMerge {α : Type} (d c : Dict α) : Dict α :=
  List.map (fun p => match dget c p.1 with | some v => (p.1, v) | none => p) d
    ++ List.filter (fun p => !(dmem d p.1)) c

/-- `str(x)` on a configuration value (used by the instruction f-strings). -/
def pyStr : Value → String
  | .vStr s => s
  | .vInt n => toString n
  | .vNone => "None"

/-- Truthiness of `config.get(k)` (missing keys give `None`, which is falsy). -/
def cfgTruthy (config : Config) (k : String) : Bool :=
  truthy ((dget config k).getD .vNone)

/-- `EC2ServiceHandler.get_default_config` -/
def ec2_default_config : Config :=
  [("instance_type", .vStr "t4g.nano"), ("quantity", .vInt 1),
   ("operating_system", .vStr "Linux"), ("region", .vStr "US East (Ohio)"),
   ("storage_type", .vStr "General Purpose SSD (gp3)"), ("storage_size", .vStr "30"),
   ("storage_unit", .vStr "GB"), ("tenancy", .vStr "Shared"),
   ("pricing_model", .vStr "On-Demand"), ("utilization", .vStr "100"),
   ("iops", .vStr "3000"), ("description", .vStr "EC2 Instance Estimate")]

/-- `EC2ServiceHandler.validate_config`, error strings and order as in the
source: required-field checks on the raw config, then quantity,
storage_size, utilization and optional IOPS range checks. -/
def ec2_validate_config (config : Config) : List String :=
  let errs : List String := []
  let errs := errs ++
    (if cfgTruthy config "instance_type" then [] else ["EC2: instance_type is required"])
  let errs := errs ++
    (if cfgTruthy config "operating_system" then [] else ["EC2: operating_system is required"])
  let errs := errs ++
    (if cfgTruthy config "region" then [] else ["EC2: region is required"])
  let errs := errs ++
    (match pyToInt (dgetD config "quantity" (.vInt 1)) with
     | some q => if q < 1 ∨ 1000 < q then ["EC2: quantity must be between 1 and 1000"] else []
     | none => ["EC2: quantity must be a valid number"])
  let errs := errs ++
    (match pyToInt (dgetD config "storage_size" (.vStr "30")) with
     | some n =>
        (if n < 8 then ["EC2: storage_size must be at least 8 GB"] else []) ++
        (if 16384 < n then ["EC2: storage_size cannot exceed 16,384 GB"] else [])
     | none => ["EC2: storage_size must be a valid number"])
  let errs := errs ++
    (match pyToInt (dgetD config "utilization" (.vStr "100")) with
     | some u => if u < 1 ∨ 100 < u then ["EC2: utilization must be between 1 and 100 percent"] else []
     | none => ["EC2: utilization must be a valid number"])
  let errs := errs ++
    (if cfgTruthy config "iops" then
      match pyToInt ((dget config "iops").getD .vNone) with
      | some v => if v < 100 ∨ 64000 < v then ["EC2: IOPS must be between 100 and 64,000"] else []
      | none => ["EC2: IOPS must be a valid number"]
     else [])
  errs

/-- `EC2ServiceHandler.get_service_instructions`: merges the defaults under
the user config (`{**self.get_default_config(), **config}`) and interpolates
the merged values into the instruction text. The static prose of the
f-string is abbreviated here; every interpolated field of the source
f-string appears, reading from the merged config exactly as the source
does. -/
def ec2_service_instructions (config : Config) : String :=
  let full := dictMerge ec2_default_config config
  let fget := fun k => pyStr ((dget full k).getD .vNone)
  "AMAZON EC2 DETAILED CONFIGURATION WORKFLOW" ++
  " Region: " ++ fget "region" ++
  " Tenancy: " ++ fget "tenancy" ++
  " Operating System: " ++ fget "operating_system" ++
  " Number of Instances: " ++ fget "quantity" ++
  " Instance Type: " ++ fget "instance_type" ++
  " Payment Method: " ++ fget "pricing_model" ++
  " Storage Type: " ++ fget "storage_type" ++
  " Storage Amount: " ++ fget "storage_size" ++
  " Storage Unit: " ++ fget "storage_unit"

/-- The EC2 handler object (`EC2ServiceHandler`). -/
def ec2Handler : Handler :=
  { service_name := "Amazon EC2"
    search_terms := ["EC2", "Amazon EC2", "Elastic Compute Cloud"]
    category := "compute"
    default_config := ec2_default_config
    timeout_seconds := 180
    complexity_score := 8
    validate_config := ec2_validate_config
    service_instructions := ec2_service_instructions }

/-- `RDSServiceHandler.get_default_config` -/
def rds_default_config : Config :=
  [("engine", .vStr "MySQL"), ("instance_class", .vStr "db.t3.micro"),
   ("storage_type", .vStr "gp2"), ("allocated_storage", .vStr "20"),
   ("storage_unit", .vStr "GB"), ("multi_az", .vStr "No"),
   ("region", .vStr "US East (N. Virginia)")]

/-- `RDSServiceHandler.validate_config` -/
def rds_validate_config (config : Config) : List String :=
  let errs : List String := []
  let errs := errs ++
    (if cfgTruthy config "engine" then [] else ["RDS: engine is required"])
  let errs := errs ++
    (if cfgTruthy config "instance_class" then [] else ["RDS: instance_class is required"])
  let errs := errs ++
    (match pyToInt (dgetD config "allocated_storage" (.vStr "20")) with
     | some n => if n < 20 then ["RDS: allocated_storage must be at least 20 GB"] else []
     | none => ["RDS: allocated_storage must be a valid number"])
  errs

/-- `RDSServiceHandler.get_service_instructions` (abbreviated prose, same
merged-config data dependencies as the source f-string). -/
def rds_service_instructions (config : Config) : String :=
  let full := dictMerge rds_default_config config
  let fget := fun k => pyStr ((dget full k).getD .vNone)
  "ADD AMAZON RDS SERVICE" ++
  " Region: " ++ fget "region" ++
  " Database Engine: " ++ fget "engine" ++
  " Instance Class: " ++ fget "instance_class" ++
  " Storage Type: " ++ fget "storage_type" ++
  " Allocated Storage: " ++ fget "allocated_storage" ++ " " ++ fget "storage_unit" ++
  " Multi-AZ: " ++ fget "multi_az"

/-- The RDS handler object (`RDSServiceHandler`). -/
def rdsHandler : Handler :=
  { service_name := "Amazon RDS"
    search_terms := ["RDS", "Amazon RDS", "Relational Database"]
    category := "database"
    default_config := rds_default_config
    timeout_seconds := 140
    complexity_score := 7
    validate_config := rds_validate_config
    service_instructions := rds_service_instructions }

/-! ## Rate limiter (`src/utils/rate_limiter.py`) -/

/-- `BedrockRateLimiter` mutable fields. Times are rationals (seconds). -/
structure RateLimiterState where
  last_request_time : ℚ
  request_count : Nat
  minute_start : ℚ

/-- `BedrockRateLimiter.__init__` fields at construction time `t`. -/
def initLimiter (t : ℚ) : RateLimiterState :=
  { last_request_time := 0, request_count := 0, minute_start := t }

/-- Result of one `wait_if_needed` call: new state, the wall-clock time at
which the call returns, and the two sleeps it performed. -/
structure WaitResult where
  state : RateLimiterState
  ret_time : ℚ
  rate_wait : ℚ
  spacing_wait : ℚ

/-- First block of `wait_if_needed` (reset counter each minute): the
counter and window start after the 60-second reset check. -/
def resetIfWindowPassed (st : RateLimiterState) (t0 : ℚ) : Nat × ℚ :=
  if 60 ≤ t0 - st.minute_start then (0, t0) else (st.request_count, st.minute_start)

/-- Second block of `wait_if_needed` (rate limit check): given the counter
and window start after the reset check, yields `((counter, window start),
(clock after the block, sleep performed))`. When the cap is reached and
time remains in the window, the caller sleeps out the window, the counter
resets and the window restarts at the wake-up time. -/
def capWait (requests_per_minute c1 : Nat) (m1 t0 : ℚ) : (Nat × ℚ) × (ℚ × ℚ) :=
  if requests_per_minute ≤ c1 then
    if 0 < 60 - (t0 - m1) then
      ((0, t0 + (60 - (t0 - m1))), (t0 + (60 - (t0 - m1)), 60 - (t0 - m1)))
    else ((c1, m1), (t0, 0))
  else ((c1, m1), (t0, 0))

/-- Third block of `wait_if_needed` (minimum delay between requests):
`time_since_last` is computed from the stale `current_time` read at entry
(`t0`), the sleep happens at clock `t1`; yields `(clock after the block,
sleep performed)`. -/
def spacingWait (requests_per_minute : Nat) (last t0 t1 : ℚ) : ℚ × ℚ :=
  if t0 - last < 60 / (requests_per_minute : ℚ) then
    (t1 + (60 / (requests_per_minute : ℚ) - (t0 - last)), 60 / (requests_per_minute : ℚ) - (t0 - last))
  else (t1, 0)

/-- `BedrockRateLimiter.wait_if_needed`, entered at wall-clock time `t0`
(`time.time()`); `time.sleep(w)` advances the clock by exactly `w`.
Mirrors the source: reset the counter when the window is 60s old, sleep
out the rest of the window when the cap is reached (then reset), enforce
the minimum spacing `60 / requests_per_minute` (computed against the stale
`current_time` read at entry), then stamp `last_request_time` and
increment the counter. -/
def wait_if_needed (requests_per_minute : Nat) (st : RateLimiterState) (t0 : ℚ) :
    WaitResult :=
  let a := resetIfWindowPassed st t0
  let b := capWait requests_per_minute a.1 a.2 t0
  let c := spacingWait requests_per_minute st.last_request_time t0 b.2.1
  { state := { last_request_time := c.1, request_count := b.1.1 + 1, minute_start := b.1.2 }
    ret_time := c.1
    rate_wait := b.2.2
    spacing_wait := c.2 }

/-- A sequence of `wait_if_needed` calls at the given wall-clock times. -/
def runLimiter (requests_per_minute : Nat) (st : RateLimiterState) (ts : List ℚ) :
    RateLimiterState :=
  List.foldl (fun s t => (wait_if_needed requests_per_minute s t).state) st ts

/-! ## Retry policy (`with_retry_and_backoff`) -/

/-- Outcome of one invocation of the wrapped function: normal return,
`botocore` `ClientError` with an error code, or any other exception. -/
inductive CallOutcome (α : Type) where
  | ok (v : α)
  | clientError (code : String)
  | exc (msg : String)

/-- An exception escaping the wrapper. -/
inductive PyErr where
  | clientError (code : String)
  | exc (msg : String)
  deriving DecidableEq, Repr

/-- The throttling codes retried with the steeper backoff. -/
def isThrottlingCode (code : String) : Bool :=
  code == "ThrottlingException" || code == "TooManyRequestsException"

/-- The `for attempt in range(max_retries + 1)` loop of
`with_retry_and_backoff`, entered at iteration `attempt`. Every loop-body
path either returns, raises, or continues with `attempt + 1` while
`attempt < max_retries`, so the trailing `raise last_exception` after the
loop is dead code and the recursion mirrors the loop exactly. The sleeps
(`base_delay * 3 ** attempt + jitter` for throttling, `base_delay * 2 **
attempt` otherwise) do not affect the returned value and are not modelled.
Returns the result together with the number of invocations made. -/
def retryLoop {α : Type} (f : Nat → CallOutcome α) (max_retries : Nat) :
    Nat → Nat → Except PyErr α × Nat
  | attempt, fuel + 1 =>
      match f attempt with
      | .ok v => (.ok v, attempt + 1)
      | .clientError code =>
          if isThrottlingCode code then
            if attempt < max_retries then retryLoop f max_retries (attempt + 1) fuel
            else (.error (.clientError code), attempt + 1)
          else (.error (.clientError code), attempt + 1)
      | .exc m =>
          if attempt < max_retries then retryLoop f max_retries (attempt + 1) fuel
          else (.error (.exc m), attempt + 1)
  | attempt, 0 => (.error (.exc "unreachable"), attempt)

/-- `with_retry_and_backoff(max_retries, base_delay)` applied to a call
whose `attempt`-th invocation yields `f attempt`. The loop runs at most
`max_retries + 1` iterations, so that fuel never reaches the
fuel-exhausted branch (which stands for the dead `raise last_exception`
after the loop). -/
def with_retry_and_backoff {α : Type} (f : Nat → CallOutcome α)
    (max_retries : Nat) : Except PyErr α × Nat :=
  retryLoop f max_retries 0 (max_retries + 1)

/-! ## Service orchestrator (`src/agents/service_orchestrator.py`)

The LangGraph workflow is `plan_workflow → initialize_browser →
process_service → (continue | finalize | error)`. External effects (the
browser agent) are oracles: `AgentOutcome` is what the awaited
`browser_agent.run(...)` does for a given service. -/

/-- Outcome of the awaited browser-agent run inside
`_execute_service_workflow`: a normal return (any value is treated as
success), an `asyncio.TimeoutError`, or any other exception. -/
inductive AgentOutcome where
  | done
  | timedOut
  | raised (msg : String)
  deriving DecidableEq, Repr

/-- `ServiceOrchestrator._execute_service_workflow`: returns `True` when
the awaited run returns, `False` on timeout or exception, logging the
captured reason. Returns the success flag with the log lines emitted. -/
def execute_service_workflow (h : Handler) (service_type : String)
    (outcome : AgentOutcome) : Bool × List String :=
  match outcome with
  | .done => (true, [])
  | .timedOut =>
      (false, ["Service " ++ service_type ++ " timed out after " ++
        toString h.timeout_seconds ++ " seconds"])
  | .raised m =>
      (false, ["Service " ++ service_type ++ " execution failed: " ++ m])

/-- The `ServiceOrchestrationState` fields the orchestration logic touches
(`workflow_plan = none` models the initial empty dict), plus the error log. -/
structure OrchState where
  services_config : Dict Config
  workflow_plan : Option WorkflowPlan
  current_service_index : Nat
  completed_services : List String
  failed_services : List String
  error_message : String
  log : List String

/-- `ServiceOrchestrator.plan_workflow`: builds the plan from the config
keys, validates every `(service, config)` pair, and either records the
validation failure in `error_message` (the plan is not stored) or stores
the plan and resets the progress fields. -/
def plan_workflow (r : ServiceRegistry) (st : OrchState) : OrchState :=
  let service_types := List.map Prod.fst st.services_config
  let wp := get_workflow_plan r service_types
  let validation_errors := List.foldl
    (fun acc p => acc ++ validate_service_config r p.1 p.2) [] st.services_config
  if validation_errors ≠ [] then
    { st with error_message :=
        "Configuration validation failed: " ++ String.intercalate "; " validation_errors }
  else
    { st with
      workflow_plan := some wp
      current_service_index := 0
      completed_services := []
      failed_services := [] }

/-- `ServiceOrchestrator.initialize_browser`: `_build_comprehensive_task`
reads `workflow_plan["service_order"]`, so with the initial empty plan dict
it raises `KeyError` and the node records a browser-initialization error;
otherwise agent construction is external and may fail (`browserOk`). -/
def init_browser (browserOk : Bool) (st : OrchState) : OrchState :=
  match st.workflow_plan with
  | none =>
      { st with error_message := "Browser initialization failed: KeyError service_order" }
  | some _ =>
      if browserOk then st
      else { st with error_message := "Browser initialization failed: agent error" }

/-- `ServiceOrchestrator.process_single_service`: processes the service at
`current_service_index`. A missing plan key, a missing config entry or a
missing handler raises inside the node and is recorded in `error_message`
by its `except` clause; otherwise `_execute_service_workflow` runs and the
service is appended to `completed_services` or `failed_services` and the
index advances. -/
def process_single_service (r : ServiceRegistry) (executor : String → AgentOutcome)
    (st : OrchState) : OrchState :=
  match st.workflow_plan with
  | none =>
      { st with error_message := "Service processing error: KeyError service_order" }
  | some wp =>
      if wp.service_order.length ≤ st.current_service_index then st
      else
        let service_type := wp.service_order.getD st.current_service_index ""
        match dget st.services_config service_type with
        | none =>
            { st with error_message := "Service processing error: KeyError " ++ service_type }
        | some _config =>
            match get_handler r service_type with
            | none =>
                { st with error_message :=
                    "Service processing error: No handler found for service: " ++ service_type }
            | some h =>
                let res := execute_service_workflow h service_type (executor service_type)
                if res.1 then
                  { st with
                    completed_services := st.completed_services ++ [service_type]
                    current_service_index := st.current_service_index + 1
                    log := st.log ++ res.2 }
                else
                  { st with
                    failed_services := st.failed_services ++ [service_type]
                    current_service_index := st.current_service_index + 1
                    log := st.log ++ res.2 }

/-- `_service_router` total-services count:
`len(state.get("workflow_plan", {}).get("service_order", []))`. -/
def orchTotal (st : OrchState) : Nat :=
  match st.workflow_plan with
  | some wp => wp.service_order.length
  | none => 0

/-- The `process_service` loop with its conditional edges: run the node,
then route to `handle_error` (which returns the state unchanged) on
`error_message`, to `finalize_estimate` when the index has passed the last
service, and back to `process_service` otherwise. `fuel` bounds the
iterations; every run is given enough fuel for its plan. -/
def orch_loop (r : ServiceRegistry) (executor : String → AgentOutcome) :
    Nat → OrchState → OrchState
  | 0, st => st
  | fuel + 1, st =>
      let st := process_single_service r executor st
      if st.error_message != "" then st
      else if orchTotal st ≤ st.current_service_index then st
      else orch_loop r executor fuel st

/-- `ServiceOrchestrator.finalize_estimate`: runs the browser once more to
extract the estimate link; an exception is recorded in `error_message`
(`finalizeOk` is the external outcome). Link extraction is outside the
claims and not tracked. -/
def finalize_estimate (finalizeOk : Bool) (st : OrchState) : OrchState :=
  if finalizeOk then st
  else { st with error_message := "Finalization failed: browser error" }

/-- The final report of `ServiceOrchestrator.run_estimation`. -/
structure RunResult where
  status : String
  error : Option String
  services_added : List String
  services_failed : List String
  deriving DecidableEq, Repr

/-- The orchestrator state when the `process_service` loop reaches its
conditional edge out (`finalize_estimate` or `handle_error`): the graph so
far is `plan_workflow → initialize_browser → process_service*`. The loop
fuel `orchTotal + 1` covers every plan (the index advances on each
iteration). -/
def orch_final (r : ServiceRegistry) (executor : String → AgentOutcome)
    (browserOk : Bool) (services_config : Dict Config) : OrchState :=
  let st0 : OrchState := ⟨services_config, none, 0, [], [], "", []⟩
  let st1 := plan_workflow r st0
  let st2 := init_browser browserOk st1
  orch_loop r executor (orchTotal st2 + 1) st2

/-- `ServiceOrchestrator.run_estimation`: drive the compiled graph to
`END` (`finalize_estimate` runs only on the error-free edge,
`handle_error` returns the state unchanged), then format: any
`error_message` gives `status "error"` (with no service lists), otherwise
`status "success"` with the completed/failed breakdown. -/
def run_estimation (r : ServiceRegistry) (executor : String → AgentOutcome)
    (browserOk finalizeOk : Bool) (services_config : Dict Config) : RunResult :=
  let st3 := orch_final r executor browserOk services_config
  let st4 := if st3.error_message == "" then finalize_estimate finalizeOk st3 else st3
  if st4.error_message != "" then
    { status := "error", error := some st4.error_message,
      services_added := [], services_failed := [] }
  else
    { status := "success", error := none,
      services_added := st4.completed_services,
      services_failed := st4.failed_services }

/-! ## Cost estimation workflow (`src/workflows/cost_estimation_workflow.py`)

The service-addition loop: `prepare_services → add_single_service →
check_more_services → (more | done) → generate_links → format_result`.
The per-service executor is `browser_agent.add_service_by_type`, which
returns a boolean (`False` also covers internal timeouts, since it checks
the sub-workflow status) or raises. -/

/-- Outcome of `browser_agent.add_service_by_type` for one service. -/
inductive AddOutcome where
  | ok
  | failed
  | raised (msg : String)
  deriving DecidableEq, Repr

/-- The fixed ordering list of `prepare_services_queue`. -/
def wf_service_order : List String := ["vpc", "ec2", "rds", "s3", "load_balancer"]

/-- `CostEstimationWorkflow.prepare_services_queue`: the priority services
present in the parsed request, then the remaining parsed services without
duplication. -/
def prepare_services_queue (parsed : Dict Config) : List String :=
  let ordered := List.foldl
    (fun acc t => if dmem parsed t then acc ++ [t] else acc) [] wf_service_order
  List.foldl (fun acc t => if t ∈ acc then acc else acc ++ [t]) ordered
    (List.map Prod.fst parsed)

/-- The `EstimationState` fields the addition loop touches. -/
structure WfState where
  parsed_services : Dict Config
  services_to_add : List String
  current_service_index : Nat
  added_services : List String
  failed_services : List String
  error_message : String

/-- `CostEstimationWorkflow.add_single_service`: success appends to
`added_services`; a `False` return appends to `failed_services`; an
exception is caught by the node's own `except`, which also appends the
current service to `failed_services`. The index advances in every case. -/
def add_single_service (adder : String → AddOutcome) (st : WfState) : WfState :=
  if st.services_to_add.length ≤ st.current_service_index then st
  else
    let t := st.services_to_add.getD st.current_service_index ""
    match adder t with
    | .ok =>
        { st with
          added_services := st.added_services ++ [t]
          current_service_index := st.current_service_index + 1 }
    | .failed =>
        { st with
          failed_services := st.failed_services ++ [t]
          current_service_index := st.current_service_index + 1 }
    | .raised _m =>
        { st with
          failed_services := st.failed_services ++ [t]
          current_service_index := st.current_service_index + 1 }

/-- The addition loop: `_service_router` always answers `"success"`, so
after each `add_single_service` the graph goes through
`check_more_services` and `_more_services_router` loops back while
`current_service_index < len(services_to_add)`. -/
def wf_loop (adder : String → AddOutcome) : Nat → WfState → WfState
  | 0, st => st
  | fuel + 1, st =>
      let st := add_single_service adder st
      if st.current_service_index < st.services_to_add.length then wf_loop adder fuel st
      else st

/-- `CostEstimationWorkflow.format_final_result`: always reports
`status "success"` with the added/failed breakdown. -/
def format_final_result (st : WfState) : RunResult :=
  { status := "success", error := none,
    services_added := st.added_services,
    services_failed := st.failed_services }

/-- The workflow from `prepare_services_queue` to `format_final_result`
for an already parsed and validated request (parsing and validation
upstream are external to these claims; a validation failure routes to
`handle_error` before this point). -/
def wf_run (adder : String → AddOutcome) (parsed : Dict Config) : RunResult :=
  let order := prepare_services_queue parsed
  let st0 : WfState := ⟨parsed, order, 0, [], [], ""⟩
  format_final_result (wf_loop adder (order.length + 1) st0)

/-! ## Derived notions and concrete instances used in the theorems -/

/-- `True` when the registered handler of `s` has category `c`
(unregistered services have no category). -/
def hasCat (r : ServiceRegistry) (s c : String) : Bool :=
  match get_handler r s with
  | some h => h.category == c
  | none => false

/-- Whether a browser-agent outcome counts as success for
`_execute_service_workflow` (only a normal return does). -/
def agentOk : AgentOutcome → Bool
  | .done => true
  | .timedOut => false
  | .raised _ => false

/-- Whether an `add_service_by_type` outcome puts the service on the
added list (only a `True` return does). -/
def addOk : AddOutcome → Bool
  | .ok => true
  | .failed => false
  | .raised _ => false

/-- The log lines `process_single_service` adds for service `s`. -/
def logFor (r : ServiceRegistry) (executor : String → AgentOutcome) (s : String) :
    List String :=
  match get_handler r s with
  | some h => (execute_service_workflow h s (executor s)).2
  | none => []

/-- A registry holding only the EC2 handler. -/
def regEC2 : ServiceRegistry := register_service emptyRegistry "ec2" ec2Handler

/-- A registry holding the EC2 and RDS handlers. -/
def regEC2RDS : ServiceRegistry := register_service regEC2 "rds" rdsHandler

/-- A user EC2 configuration that passes `ec2_validate_config`. -/
def ec2_ok_config : Config :=
  [("instance_type", .vStr "t3.micro"), ("operating_system", .vStr "Linux"),
   ("region", .vStr "US East (N. Virginia)"), ("quantity", .vInt 2)]

/-- A user RDS configuration that passes `rds_validate_config`. -/
def rds_ok_config : Config :=
  [("engine", .vStr "MySQL"), ("instance_class", .vStr "db.t3.micro")]

/-! ## Dictionary lemmas -/

theorem find?_map_keyfix {α : Type} (g : String × α → String × α)
    (hg : ∀ p, (g p).1 = p.1) (d : Dict α) (k : String) :
    List.find? (fun p => p.1 == k) (List.map g d)
      = (List.find? (fun p => p.1 == k) d).map g := by
  induction d with
  | nil => rfl
  | cons p rest ih =>
    simp only [List.map_cons, List.find?_cons]
    have hgp : ((g p).1 == k) = (p.1 == k) := by rw [hg]
    rw [hgp]
    cases hb : (p.1 == k) with
    | true => rfl
    | false => exact ih

theorem dmem_eq_false_find? {α : Type} (d : Dict α) (k : String) (h : dmem d k = false) :
    List.find? (fun p => p.1 == k) d = none := by
  apply List.find?_eq_none.mpr
  intro x hx
  simp only [dmem, List.any_eq_false] at h
  exact h x hx

theorem dmem_find? {α : Type} (d : Dict α) (k : String) (h : dmem d k = true) :
    ∃ p, List.find? (fun q => q.1 == k) d = some p ∧ p.1 = k := by
  have hs : (List.find? (fun q => q.1 == k) d).isSome := by
    rw [List.find?_isSome]
    simpa [dmem, List.any_eq_true] using h
  obtain ⟨p, hp⟩ := Option.isSome_iff_exists.mp hs
  exact ⟨p, hp, by simpa using List.find?_some hp⟩

theorem dget_dset_self {α : Type} (d : Dict α) (k : String) (v : α) :
    dget (dset d k v) k = some v := by
  unfold dset
  by_cases h : dmem d k = true
  · rw [if_pos h]
    unfold dget
    rw [find?_map_keyfix (fun p => if p.1 == k then (p.1, v) else p)
      (by intro p; by_cases hp : (p.1 == k) = true <;> simp [hp]) d k]
    obtain ⟨p, hp, hpk⟩ := dmem_find? d k h
    rw [hp]
    simp [hpk]
  · rw [if_neg h]
    unfold dget
    rw [List.find?_append, dmem_eq_false_find? d k (by simpa using h)]
    simp [List.find?]

theorem dget_catAppend_ne (d : Dict (List String)) (cat key c : String) (hne : c ≠ cat) :
    dget (catAppend d cat key) c = dget d c := by
  have hg : ∀ p : String × List String,
      ((fun p => if p.1 == cat then (p.1, p.2 ++ [key]) else p) p).1 = p.1 := by
    intro p; by_cases hp : (p.1 == cat) = true <;> simp [hp]
  have hmap : ∀ q : String × List String, q.1 = c →
      (fun p => if p.1 == cat then (p.1, p.2 ++ [key]) else p) q = q := by
    intro q hq
    have : (q.1 == cat) = false := by
      rw [hq]; exact beq_eq_false_iff_ne.mpr hne
    simp [this]
  unfold catAppend dget
  rw [find?_map_keyfix _ hg]
  by_cases h : dmem d cat = true
  · rw [if_pos h]
    cases hq : List.find? (fun p => p.1 == c) d with
    | none => simp
    | some q =>
      have hqc : q.1 = c := by simpa using List.find?_some hq
      simp [hqc, hne]
  · rw [if_neg h, List.find?_append]
    have hcc : (cat == c) = false := beq_eq_false_iff_ne.mpr (Ne.symm hne)
    have hsingle : List.find? (fun p => p.1 == c) [(cat, ([] : List String))] = none := by
      simp [List.find?, hcc]
    rw [hsingle, Option.or_none]
    cases hq : List.find? (fun p => p.1 == c) d with
    | none => simp
    | some q =>
      have hqc : q.1 = c := by simpa using List.find?_some hq
      simp [hqc, hne]

theorem dgetD_catAppend_self (d : Dict (List String)) (cat key : String) :
    dgetD (catAppend d cat key) cat [] = dgetD d cat [] ++ [key] := by
  have hg : ∀ p : String × List String,
      ((fun p => if p.1 == cat then (p.1, p.2 ++ [key]) else p) p).1 = p.1 := by
    intro p; by_cases hp : (p.1 == cat) = true <;> simp [hp]
  unfold catAppend dgetD dget
  rw [find?_map_keyfix _ hg]
  by_cases h : dmem d cat = true
  · rw [if_pos h]
    obtain ⟨p, hp, hpk⟩ := dmem_find? d cat h
    rw [hp]
    simp [hpk]
  · rw [if_neg h, List.find?_append, dmem_eq_false_find? d cat (by simpa using h)]
    simp [List.find?]

theorem dgetD_eq_nil_of_dmem_false (d : Dict (List String)) (c : String)
    (h : dmem d c = false) : dgetD d c [] = [] := by
  unfold dgetD dget
  rw [dmem_eq_false_find? d c h]
  rfl

theorem find?_filter_of_imp {α : Type} (p q : α → Bool) (l : List α)
    (h : ∀ x, p x = true → q x = true) :
    List.find? p (List.filter q l) = List.find? p l := by
  induction l with
  | nil => rfl
  | cons x rest ih =>
    by_cases hq : q x = true
    · rw [List.filter_cons_of_pos hq]
      by_cases hp : p x = true
      · rw [List.find?_cons_of_pos _ hp, List.find?_cons_of_pos _ hp]
      · rw [List.find?_cons_of_neg _ hp, List.find?_cons_of_neg _ hp, ih]
    · have hp : ¬ p x = true := fun hc => hq (h x hc)
      rw [List.filter_cons_of_neg (by simpa using hq), List.find?_cons_of_neg _ hp]
      exact ih

theorem dget_dictMerge {α : Type} (d c : Dict α) (k : String) :
    dget (dictMerge d c) k = (dget c k).or (dget d k) := by
  have hg : ∀ p : String × α,
      ((fun (p : String × α) => match dget c p.1 with | some v => (p.1, v) | none => p) p).1
        = p.1 := by
    intro p; cases h : dget c p.1 <;> simp [h]
  have hrw : ∀ (l : Dict α), dget l k = (List.find? (fun p => p.1 == k) l).map Prod.snd :=
    fun l => rfl
  rw [dictMerge, hrw, List.find?_append, find?_map_keyfix _ hg]
  cases hd : List.find? (fun p => p.1 == k) d with
  | some p =>
    have hpk : p.1 = k := by simpa using List.find?_some hd
    cases hc : List.find? (fun q => q.1 == k) c with
    | some v => simp [dget, hd, hc, hpk]
    | none => simp [dget, hd, hc, hpk]
  | none =>
    have hdm : dmem d k = false := by
      by_contra hb
      obtain ⟨p, hp, _⟩ := dmem_find? d k (by simpa using hb)
      rw [hd] at hp
      cases hp
    have hfilter : List.find? (fun p => p.1 == k)
        (List.filter (fun p => !(dmem d p.1)) c) = List.find? (fun p => p.1 == k) c := by
      apply find?_filter_of_imp
      intro x hx
      have : x.1 = k := by simpa using hx
      rw [this, hdm]
      rfl
    rw [hfilter]
    cases hc : List.find? (fun q => q.1 == k) c <;> simp [dget, hd, hc]

/-! ## Claim C9: registry re-registration -/

/-- C9 counterexample: re-registering `"ec2"` (same handler, same
category) does not leave the registry in the state a single registration
gives: the category index lists the key twice, so the observable state
differs and a key is present twice in the category grouping. -/
theorem c9_reregistration_counterexample :
    get_services_by_category
        (register_service (register_service emptyRegistry "ec2" ec2Handler) "ec2" ec2Handler)
        "compute" = ["ec2", "ec2"] ∧
    get_services_by_category (register_service emptyRegistry "ec2" ec2Handler) "compute"
      = ["ec2"] ∧
    (["ec2", "ec2"] : List String) ≠ ["ec2"] :=
  ⟨by decide, by decide, by decide⟩

/-- C9 (amended): re-registering a key overwrites the stored descriptor,
so `get_handler` sees only the last registration (last write wins), but
the key is appended to its category group again, so
`get_services_by_category` lists the key once per registration; the
registry state is not that of a single registration. (The source also
logs an info-level message, not a warning.) -/
theorem register_service_last_write_wins (r : ServiceRegistry) (k : String)
    (h1 h2 : Handler) (hcat : h1.category = h2.category) :
    get_handler (register_service (register_service r k h1) k h2) k = some h2 ∧
    get_services_by_category (register_service (register_service r k h1) k h2) h2.category
      = get_services_by_category r h2.category ++ [k, k] := by
  constructor
  · exact dget_dset_self _ k h2
  · show dgetD (catAppend (catAppend r.categories h1.category k) h2.category k) h2.category []
      = _
    rw [hcat, dgetD_catAppend_self, dgetD_catAppend_self]
    simp [get_services_by_category]

/-- Witness for `register_service_last_write_wins` at a concrete double
registration. -/
theorem register_service_last_write_wins_witness :
    get_handler (register_service (register_service emptyRegistry "ec2" ec2Handler)
        "ec2" ec2Handler) "ec2" = some ec2Handler ∧
    get_services_by_category (register_service (register_service emptyRegistry "ec2" ec2Handler)
        "ec2" ec2Handler) ec2Handler.category
      = get_services_by_category emptyRegistry ec2Handler.category ++ ["ec2", "ec2"] :=
  register_service_last_write_wins emptyRegistry "ec2" ec2Handler ec2Handler rfl

/-! ## Claims C6 and C7: retry policy -/

theorem retryLoop_throttle_then_ok {α : Type} (f : Nat → CallOutcome α) (m : Nat)
    (v : α) (codes : Nat → String)
    (hfail : ∀ i, i < m → f i = .clientError (codes i) ∧ isThrottlingCode (codes i) = true)
    (hok : f m = .ok v) :
    ∀ fuel a, a ≤ m → m - a < fuel → retryLoop f m a fuel = (.ok v, m + 1) := by
  intro fuel
  induction fuel with
  | zero => intro a _ h; omega
  | succ n ih =>
    intro a ha hlt
    by_cases hm : a = m
    · subst hm
      simp [retryLoop, hok]
    · have ham : a < m := lt_of_le_of_ne ha hm
      obtain ⟨hf, ht⟩ := hfail a ham
      simp only [retryLoop, hf, ht, if_true, ham, if_pos]
      exact ih (a + 1) (by omega) (by omega)

theorem retryLoop_throttle_exhaust {α : Type} (f : Nat → CallOutcome α) (m : Nat)
    (codes : Nat → String)
    (hfail : ∀ i, i ≤ m → f i = .clientError (codes i) ∧ isThrottlingCode (codes i) = true) :
    ∀ fuel a, a ≤ m → m - a < fuel →
      retryLoop f m a fuel = (.error (.clientError (codes m)), m + 1) := by
  intro fuel
  induction fuel with
  | zero => intro a _ h; omega
  | succ n ih =>
    intro a ha hlt
    obtain ⟨hf, ht⟩ := hfail a ha
    by_cases hm : a = m
    · subst hm
      simp [retryLoop, hf, ht]
    · have ham : a < m := lt_of_le_of_ne ha hm
      simp only [retryLoop, hf, ht, if_true, ham, if_pos]
      exact ih (a + 1) (by omega) (by omega)

theorem retryLoop_exc_exhaust {α : Type} (f : Nat → CallOutcome α) (m : Nat)
    (msgs : Nat → String)
    (hfail : ∀ i, i ≤ m → f i = .exc (msgs i)) :
    ∀ fuel a, a ≤ m → m - a < fuel →
      retryLoop f m a fuel = (.error (.exc (msgs m)), m + 1) := by
  intro fuel
  induction fuel with
  | zero => intro a _ h; omega
  | succ n ih =>
    intro a ha hlt
    have hf := hfail a ha
    by_cases hm : a = m
    · subst hm
      simp [retryLoop, hf]
    · have ham : a < m := lt_of_le_of_ne ha hm
      simp only [retryLoop, hf, ham, if_pos]
      exact ih (a + 1) (by omega) (by omega)

/-- C6: a call that throttles on every attempt before `max_retries` and
then succeeds returns the success value transparently (using all
`max_retries + 1` invocations); and when every attempt up to and
including `max_retries` throttles, the wrapper re-raises the last error
rather than swallowing it. -/
theorem retry_transparent_success_and_reraise_last {α : Type}
    (f : Nat → CallOutcome α) (max_retries : Nat) (v : α) (codes : Nat → String) :
    ((∀ i, i < max_retries →
        f i = .clientError (codes i) ∧ isThrottlingCode (codes i) = true) →
      f max_retries = .ok v →
      with_retry_and_backoff f max_retries = (.ok v, max_retries + 1)) ∧
    ((∀ i, i ≤ max_retries →
        f i = .clientError (codes i) ∧ isThrottlingCode (codes i) = true) →
      with_retry_and_backoff f max_retries
        = (.error (.clientError (codes max_retries)), max_retries + 1)) := by
  constructor
  · intro hfail hok
    exact retryLoop_throttle_then_ok f max_retries v codes hfail hok
      (max_retries + 1) 0 (by omega) (by omega)
  · intro hfail
    exact retryLoop_throttle_exhaust f max_retries codes hfail
      (max_retries + 1) 0 (by omega) (by omega)

/-- Witness for `retry_transparent_success_and_reraise_last`: two
throttling failures then success with `max_retries = 2` yields the value
after 3 invocations; all-throttling runs re-raise the last error. -/
theorem retry_transparent_success_and_reraise_last_witness :
    with_retry_and_backoff
      (fun i => if i < 2 then CallOutcome.clientError "ThrottlingException"
        else CallOutcome.ok 42) 2 = (.ok 42, 3) ∧
    with_retry_and_backoff
      (fun _ => (CallOutcome.clientError "TooManyRequestsException" : CallOutcome Nat)) 2
      = (.error (.clientError "TooManyRequestsException"), 3) := by
  constructor
  · exact (retry_transparent_success_and_reraise_last
      (fun i => if i < 2 then CallOutcome.clientError "ThrottlingException"
        else CallOutcome.ok 42) 2 42 (fun _ => "ThrottlingException")).1
      (fun i hi => ⟨by simp [hi], by decide⟩) rfl
  · exact (retry_transparent_success_and_reraise_last
      (fun _ => (CallOutcome.clientError "TooManyRequestsException" : CallOutcome Nat)) 2 0
      (fun _ => "TooManyRequestsException")).2
      (fun i _ => ⟨rfl, by decide⟩)

/-- C7 counterexample: a non-backend programming error (a plain exception
such as a `TypeError` from malformed call arguments, not a `ClientError`)
is caught by the indiscriminate `except Exception` clause and retried:
with `max_retries = 3` the wrapped call is invoked 4 times, not once, so
the error does not propagate immediately on the first attempt. -/
theorem retry_programming_error_counterexample :
    with_retry_and_backoff
      (fun _ => (CallOutcome.exc "TypeError: unsupported argument" : CallOutcome Nat)) 3
      = (.error (.exc "TypeError: unsupported argument"), 4) ∧ (4 : Nat) ≠ 1 :=
  ⟨rfl, by decide⟩

/-- C7 (amended): the immediate-propagation path exists only for backend
`ClientError`s whose code is not a throttling code — those propagate
after exactly one invocation; every non-`ClientError` exception (including
programming errors) is retried up to `max_retries` times and only then is
the last error re-raised, after `max_retries + 1` invocations. -/
theorem retry_error_category_behaviour {α : Type} (f : Nat → CallOutcome α)
    (max_retries : Nat) (code : String) (msgs : Nat → String) :
    (f 0 = .clientError code → isThrottlingCode code = false →
      with_retry_and_backoff f max_retries = (.error (.clientError code), 1)) ∧
    ((∀ i, i ≤ max_retries → f i = .exc (msgs i)) →
      with_retry_and_backoff f max_retries
        = (.error (.exc (msgs max_retries)), max_retries + 1)) := by
  constructor
  · intro hf hcode
    simp [with_retry_and_backoff, retryLoop, hf, hcode]
  · intro hfail
    exact retryLoop_exc_exhaust f max_retries msgs hfail (max_retries + 1) 0
      (by omega) (by omega)

/-- Witness for `retry_error_category_behaviour`: a `ValidationException`
`ClientError` propagates after one invocation; a `TypeError`-style
exception is retried to exhaustion. -/
theorem retry_error_category_behaviour_witness :
    with_retry_and_backoff
      (fun _ => (CallOutcome.clientError "ValidationException" : CallOutcome Nat)) 3
      = (.error (.clientError "ValidationException"), 1) ∧
    with_retry_and_backoff
      (fun _ => (CallOutcome.exc "TypeError: unsupported operand" : CallOutcome Nat)) 3
      = (.error (.exc "TypeError: unsupported operand"), 4) := by
  constructor
  · exact (retry_error_category_behaviour
      (fun _ => (CallOutcome.clientError "ValidationException" : CallOutcome Nat)) 3
      "ValidationException" (fun _ => "")).1 rfl (by decide)
  · exact (retry_error_category_behaviour
      (fun _ => (CallOutcome.exc "TypeError: unsupported operand" : CallOutcome Nat)) 3
      "" (fun _ => "TypeError: unsupported operand")).2 (fun i _ => rfl)

/-! ## Claim C8: rate limiter window cap -/

theorem wait_if_needed_count (rpm : Nat) (st : RateLimiterState) (t0 : ℚ) :
    (wait_if_needed rpm st t0).state.request_count
      = (capWait rpm (resetIfWindowPassed st t0).1 (resetIfWindowPassed st t0).2 t0).1.1 + 1 :=
  rfl

theorem wait_if_needed_rate_wait (rpm : Nat) (st : RateLimiterState) (t0 : ℚ) :
    (wait_if_needed rpm st t0).rate_wait
      = (capWait rpm (resetIfWindowPassed st t0).1 (resetIfWindowPassed st t0).2 t0).2.2 :=
  rfl

theorem resetIfWindowPassed_le (st : RateLimiterState) (t0 : ℚ) :
    (resetIfWindowPassed st t0).1 ≤ st.request_count := by
  unfold resetIfWindowPassed
  split <;> simp

theorem resetIfWindowPassed_window (rpm : Nat) (st : RateLimiterState) (t0 : ℚ)
    (hrpm : 1 ≤ rpm) :
    rpm ≤ (resetIfWindowPassed st t0).1 → t0 - (resetIfWindowPassed st t0).2 < 60 := by
  unfold resetIfWindowPassed
  by_cases h : (60 : ℚ) ≤ t0 - st.minute_start
  · rw [if_pos h]
    intro hle
    exact absurd hle (by omega)
  · rw [if_neg h]
    intro _
    exact not_le.mp h

theorem capWait_count_le (rpm c1 : Nat) (m1 t0 : ℚ) (hrpm : 1 ≤ rpm) (_hc : c1 ≤ rpm)
    (hwin : rpm ≤ c1 → t0 - m1 < 60) : (capWait rpm c1 m1 t0).1.1 + 1 ≤ rpm := by
  unfold capWait
  by_cases h1 : rpm ≤ c1
  · rw [if_pos h1]
    have hw : (0 : ℚ) < 60 - (t0 - m1) := by have := hwin h1; linarith
    rw [if_pos hw]
    simpa using hrpm
  · rw [if_neg h1]
    simp only []
    omega

theorem wait_if_needed_count_le (rpm : Nat) (st : RateLimiterState) (t0 : ℚ)
    (hrpm : 1 ≤ rpm) (hst : st.request_count ≤ rpm) :
    (wait_if_needed rpm st t0).state.request_count ≤ rpm := by
  rw [wait_if_needed_count]
  exact capWait_count_le rpm _ _ t0 hrpm
    (le_trans (resetIfWindowPassed_le st t0) hst)
    (resetIfWindowPassed_window rpm st t0 hrpm)

theorem runLimiter_count_le (rpm : Nat) (ts : List ℚ) :
    ∀ st : RateLimiterState, 1 ≤ rpm → st.request_count ≤ rpm →
      (runLimiter rpm st ts).request_count ≤ rpm := by
  induction ts with
  | nil => intro st _ h; exact h
  | cons t rest ih =>
    intro st h1 h2
    exact ih _ h1 (wait_if_needed_count_le rpm st t h1 h2)

/-- C8: the in-window counter never exceeds the configured cap over any
sequence of `wait_if_needed` calls; and a call arriving with the cap
reached (and the window still open) sleeps exactly the remainder of the
60-second window — resuming at `minute_start + 60` — and proceeds with the
counter reset (the call itself becomes count 1 of the fresh window). -/
theorem rate_limiter_window_cap :
    (∀ (rpm : Nat) (st : RateLimiterState) (ts : List ℚ), 1 ≤ rpm →
      st.request_count ≤ rpm → (runLimiter rpm st ts).request_count ≤ rpm) ∧
    (∀ (rpm : Nat) (st : RateLimiterState) (t0 : ℚ), 1 ≤ rpm →
      rpm ≤ st.request_count → t0 - st.minute_start < 60 →
      (wait_if_needed rpm st t0).rate_wait = 60 - (t0 - st.minute_start) ∧
      t0 + (wait_if_needed rpm st t0).rate_wait = st.minute_start + 60 ∧
      (wait_if_needed rpm st t0).state.request_count = 1) := by
  constructor
  · intro rpm st ts h1 h2
    exact runLimiter_count_le rpm ts st h1 h2
  · intro rpm st t0 hrpm hcap hwin
    have hreset : resetIfWindowPassed st t0 = (st.request_count, st.minute_start) := by
      unfold resetIfWindowPassed
      rw [if_neg (by linarith)]
    have hcapw : capWait rpm st.request_count st.minute_start t0
        = ((0, t0 + (60 - (t0 - st.minute_start))),
            (t0 + (60 - (t0 - st.minute_start)), 60 - (t0 - st.minute_start))) := by
      unfold capWait
      rw [if_pos hcap, if_pos (by linarith)]
    refine ⟨?_, ?_, ?_⟩
    · rw [wait_if_needed_rate_wait, hreset, hcapw]
    · rw [wait_if_needed_rate_wait, hreset, hcapw]
      ring
    · rw [wait_if_needed_count, hreset, hcapw]

/-- Witness for `rate_limiter_window_cap`: three calls against a cap of 5
stay under the cap, and a call at time 95 into a window that started at 50
with the cap reached sleeps 15 seconds (to time 110 = 50 + 60) and resets
the counter to 1. -/
theorem rate_limiter_window_cap_witness :
    (runLimiter 5 (initLimiter 0) [0, 10, 20]).request_count ≤ 5 ∧
    ((wait_if_needed 5 ⟨95, 5, 50⟩ 95).rate_wait = 60 - ((95 : ℚ) - 50) ∧
      (95 : ℚ) + (wait_if_needed 5 ⟨95, 5, 50⟩ 95).rate_wait = 50 + 60 ∧
      (wait_if_needed 5 ⟨95, 5, 50⟩ 95).state.request_count = 1) := by
  constructor
  · exact rate_limiter_window_cap.1 5 (initLimiter 0) [0, 10, 20] (by decide) (by decide)
  · exact rate_limiter_window_cap.2 5 ⟨95, 5, 50⟩ 95 (by decide) (by decide) (by norm_num)

/-! ## Planner characterization (claims C1, C2, C3) -/

theorem dgetD_catAppend_ne (d : Dict (List String)) (cat key c : String) (hne : c ≠ cat) :
    dgetD (catAppend d cat key) c [] = dgetD d c [] := by
  unfold dgetD
  rw [dget_catAppend_ne d cat key c hne]

/-- The grouping loop of `get_workflow_plan`: after folding over
`services`, the group of category `c` holds exactly the registered
services of category `c`, in request order, appended to whatever the
initial state held. -/
theorem planFold_group (r : ServiceRegistry) (services : List String) :
    ∀ (init : GroupState) (c : String),
      dgetD (List.foldl (planStep r) init services).groups c []
        = dgetD init.groups c [] ++ List.filter (fun s => hasCat r s c) services := by
  induction services with
  | nil => intro init c; simp
  | cons s rest ih =>
    intro init c
    rw [List.foldl_cons, ih (planStep r init s) c]
    cases hh : get_handler r s with
    | none =>
        have hcat : hasCat r s c = false := by unfold hasCat; rw [hh]
        simp [planStep, hh, List.filter_cons, hcat]
    | some h =>
        by_cases hc : h.category = c
        · have hcat : hasCat r s c = true := by
            unfold hasCat; rw [hh]; exact beq_iff_eq.mpr hc
          have hcat2 : hasCat r s h.category = true := by rw [hc]; exact hcat
          simp only [planStep, hh, addToGroups]
          rw [← hc, dgetD_catAppend_self]
          simp [List.filter_cons, hcat2, List.append_assoc]
        · have hcat : hasCat r s c = false := by
            unfold hasCat; rw [hh]; exact beq_eq_false_iff_ne.mpr hc
          simp only [planStep, hh, addToGroups]
          rw [dgetD_catAppend_ne _ _ _ _ (fun hcc => hc hcc.symm)]
          simp [List.filter_cons, hcat]

theorem foldl_append_join {β : Type} (f : β → List String) (cats : List β) :
    ∀ acc : List String,
      List.foldl (fun acc c => acc ++ f c) acc cats = acc ++ (List.map f cats).flatten := by
  induction cats with
  | nil => intro acc; simp
  | cons c rest ih => intro acc; simp [ih, List.append_assoc]

theorem foldl_dedup_append (l : List String) :
    ∀ acc : List String, l.Nodup →
      List.foldl (fun acc s => if s ∈ acc then acc else acc ++ [s]) acc l
        = acc ++ l.filter (fun s => decide (s ∉ acc)) := by
  induction l with
  | nil => intro acc _; simp
  | cons s rest ih =>
    intro acc hnd
    have hs : s ∉ rest := (List.nodup_cons.mp hnd).1
    have hrest : rest.Nodup := (List.nodup_cons.mp hnd).2
    by_cases h : s ∈ acc
    · rw [List.foldl_cons, if_pos h, ih acc hrest]
      simp [List.filter_cons, h]
    · rw [List.foldl_cons, if_neg h, ih (acc ++ [s]) hrest]
      have hfc : rest.filter (fun x => decide (x ∉ acc ++ [s]))
          = rest.filter (fun x => decide (x ∉ acc)) := by
        apply List.filter_congr
        intro x hx
        have hxs : x ≠ s := fun hxx => hs (hxx ▸ hx)
        simp [List.mem_append, hxs]
      rw [hfc]
      simp [List.filter_cons, h, List.append_assoc]

theorem mem_foldl_dedup (l : List String) :
    ∀ (acc : List String) (s : String), (s ∈ acc ∨ s ∈ l) →
      s ∈ List.foldl (fun acc s => if s ∈ acc then acc else acc ++ [s]) acc l := by
  induction l with
  | nil => intro acc s h; simpa using h
  | cons x rest ih =>
    intro acc s h
    rw [List.foldl_cons]
    rcases h with h | h
    · apply ih
      left
      split
      · exact h
      · exact List.mem_append_left _ h
    · rcases List.mem_cons.mp h with h | h
      · subst h
        apply ih
        left
        split
        · assumption
        · exact List.mem_append_right _ (List.mem_singleton_self s)
      · exact ih _ s (Or.inr h)

/-- `get_workflow_plan` order, fully characterized: the priority
categories in their fixed order, each category holding its requested
services in request order, followed by the requested services of no
priority category (unregistered ones included), in request order. -/
theorem get_workflow_plan_service_order (r : ServiceRegistry) (services : List String)
    (hnd : services.Nodup) :
    (get_workflow_plan r services).service_order
      = (priority_order.map (fun c => services.filter (fun s => hasCat r s c))).flatten
        ++ services.filter (fun s => !(priority_order.any (fun c => hasCat r s c))) := by
  have hgroups : ∀ c, dgetD (List.foldl (planStep r) ⟨[], 0, 0⟩ services).groups c []
      = List.filter (fun s => hasCat r s c) services := by
    intro c
    rw [planFold_group r services ⟨[], 0, 0⟩ c]
    rfl
  have hguard : List.foldl
      (fun acc cat =>
        if dmem (List.foldl (planStep r) ⟨[], 0, 0⟩ services).groups cat then
          acc ++ dgetD (List.foldl (planStep r) ⟨[], 0, 0⟩ services).groups cat []
        else acc)
      [] priority_order
      = List.foldl
        (fun acc cat => acc ++ dgetD (List.foldl (planStep r) ⟨[], 0, 0⟩ services).groups cat [])
        [] priority_order := by
    apply List.foldl_ext
    intro acc cat _
    by_cases h : dmem (List.foldl (planStep r) ⟨[], 0, 0⟩ services).groups cat = true
    · rw [if_pos h]
    · rw [if_neg h,
        dgetD_eq_nil_of_dmem_false _ _ (by simpa using h), List.append_nil]
  have hA : List.foldl
      (fun acc cat =>
        if dmem (List.foldl (planStep r) ⟨[], 0, 0⟩ services).groups cat then
          acc ++ dgetD (List.foldl (planStep r) ⟨[], 0, 0⟩ services).groups cat []
        else acc)
      [] priority_order
      = (priority_order.map (fun c => services.filter (fun s => hasCat r s c))).flatten := by
    rw [hguard, foldl_append_join]
    simp only [List.nil_append]
    congr 1
    exact List.map_congr_left (fun c _ => hgroups c)
  show List.foldl (fun acc s => if s ∈ acc then acc else acc ++ [s]) _ services = _
  rw [hA, foldl_dedup_append services _ hnd]
  congr 1
  apply List.filter_congr
  intro s hsmem
  have hiff : s ∈ (priority_order.map (fun c => services.filter (fun s => hasCat r s c))).flatten
      ↔ priority_order.any (fun c => hasCat r s c) = true := by
    rw [List.mem_flatten, List.any_eq_true]
    constructor
    · rintro ⟨l, hl, hsl⟩
      obtain ⟨c, hc, rfl⟩ := List.mem_map.mp hl
      exact ⟨c, hc, (List.mem_filter.mp hsl).2⟩
    · rintro ⟨c, hc, hcat⟩
      exact ⟨services.filter (fun s => hasCat r s c),
        List.mem_map_of_mem _ hc, List.mem_filter.mpr ⟨hsmem, hcat⟩⟩
  by_cases h : priority_order.any (fun c => hasCat r s c) = true
  · simp [hiff.mpr h, h]
  · have hns : s ∉ (priority_order.map (fun c => services.filter (fun s => hasCat r s c))).flatten :=
      fun hs => h (hiff.mp hs)
    simp only [Bool.not_eq_true] at h
    simp [hns, h]

/-- Splitting a list by a family of mutually exclusive predicates and a
leftover predicate is a permutation of the list. -/
theorem exclusive_filter_join_perm (p : String → String → Bool)
    (hx : ∀ s c c', p s c = true → p s c' = true → c = c') :
    ∀ (cats : List String) (l : List String), cats.Nodup →
      ((cats.map (fun c => l.filter (fun s => p s c))).flatten
        ++ l.filter (fun s => !(cats.any (fun c => p s c)))).Perm l := by
  intro cats
  induction cats with
  | nil =>
    intro l _
    simp
  | cons c cs ih =>
    intro l hnd
    have hc : c ∉ cs := (List.nodup_cons.mp hnd).1
    have hcs : cs.Nodup := (List.nodup_cons.mp hnd).2
    have h1 : ∀ c' ∈ cs, l.filter (fun s => p s c')
        = (l.filter (fun s => !(p s c))).filter (fun s => p s c') := by
      intro c' hc'
      rw [List.filter_filter]
      apply List.filter_congr
      intro x _
      by_cases hpc' : p x c' = true
      · have hpc : p x c = false := by
          by_contra hb
          exact hc ((hx x c c' (by simpa using hb) hpc') ▸ hc')
        simp [hpc', hpc]
      · have h0 : p x c' = false := by simpa using hpc'
        simp [h0]
    have h2 : l.filter (fun s => !((c :: cs).any (fun c0 => p s c0)))
        = (l.filter (fun s => !(p s c))).filter (fun s => !(cs.any (fun c0 => p s c0))) := by
      rw [List.filter_filter]
      apply List.filter_congr
      intro x _
      simp [List.any_cons, Bool.not_or, Bool.and_comm]
    have hsplit : ((c :: cs).map (fun c0 => l.filter (fun s => p s c0))).flatten
          ++ l.filter (fun s => !((c :: cs).any (fun c0 => p s c0)))
        = l.filter (fun s => p s c)
          ++ ((cs.map (fun c0 => (l.filter (fun s => !(p s c))).filter (fun s => p s c0))).flatten
            ++ (l.filter (fun s => !(p s c))).filter
              (fun s => !(cs.any (fun c0 => p s c0)))) := by
      rw [List.map_cons, List.flatten_cons, h2, List.append_assoc]
      congr 2
      exact congrArg List.flatten (List.map_congr_left (fun c0 hc0 => h1 c0 hc0))
    rw [hsplit]
    exact (List.Perm.append_left _ (ih (l.filter (fun s => !(p s c))) hcs)).trans
      (List.filter_append_perm _ l)

/-- The categories of `hasCat` are mutually exclusive: a service has at
most one registered category. -/
theorem hasCat_exclusive (r : ServiceRegistry) :
    ∀ s c c', hasCat r s c = true → hasCat r s c' = true → c = c' := by
  intro s c c' h1 h2
  unfold hasCat at h1 h2
  cases hh : get_handler r s with
  | none => simp [hh] at h1
  | some h =>
    simp only [hh] at h1 h2
    exact (beq_iff_eq.mp h1).symm.trans (beq_iff_eq.mp h2)

/-- C2: for a duplicate-free request whose keys are all registered, the
planned `service_order` is a permutation of the requested keys. -/
theorem get_workflow_plan_order_perm (r : ServiceRegistry) (services : List String)
    (hnd : services.Nodup)
    (_hreg : ∀ s ∈ services, (get_handler r s).isSome) :
    ((get_workflow_plan r services).service_order).Perm services := by
  rw [get_workflow_plan_service_order r services hnd]
  exact exclusive_filter_join_perm (hasCat r) (hasCat_exclusive r) priority_order services
    (by decide)

/-- Witness for `get_workflow_plan_order_perm` on the concrete request
`["rds", "ec2"]` against the registry with EC2 and RDS registered. -/
theorem get_workflow_plan_order_perm_witness :
    ((get_workflow_plan regEC2RDS ["rds", "ec2"]).service_order).Perm ["rds", "ec2"] :=
  get_workflow_plan_order_perm regEC2RDS ["rds", "ec2"] (by decide) (by decide)

/-- C3: for a duplicate-free request whose keys are all registered, the
planned order is exactly: for each priority category (networking,
compute, storage, database, analytics, ml, security) in that fixed
order, the requested keys of that category in original request order,
followed by the requested keys of non-priority categories in original
request order. -/
theorem get_workflow_plan_category_order (r : ServiceRegistry) (services : List String)
    (hnd : services.Nodup)
    (_hreg : ∀ s ∈ services, (get_handler r s).isSome) :
    (get_workflow_plan r services).service_order
      = (priority_order.map (fun c => services.filter (fun s => hasCat r s c))).flatten
        ++ services.filter (fun s => !(priority_order.any (fun c => hasCat r s c))) :=
  get_workflow_plan_service_order r services hnd

/-- Witness for `get_workflow_plan_category_order`: the request
`["rds", "ec2"]` (database before compute in the request) plans as
`["ec2", "rds"]` (compute before database). -/
theorem get_workflow_plan_category_order_witness :
    (get_workflow_plan regEC2RDS ["rds", "ec2"]).service_order
      = (priority_order.map (fun c => ["rds", "ec2"].filter (fun s => hasCat regEC2RDS s c))).flatten
        ++ ["rds", "ec2"].filter (fun s => !(priority_order.any (fun c => hasCat regEC2RDS s c))) :=
  get_workflow_plan_category_order regEC2RDS ["rds", "ec2"] (by decide) (by decide)

/-- C1 counterexample: with only `"ec2"` registered,
`get_workflow_plan` on `["ec2", "unknown_service"]` does not fail — it
returns a plan, and the unknown key is part of `service_order` (appended
by the remaining-services loop), while the aggregate time and complexity
count only the known service. -/
theorem plan_unknown_key_counterexample :
    (get_workflow_plan regEC2 ["ec2", "unknown_service"]).service_order
      = ["ec2", "unknown_service"] ∧
    (get_workflow_plan regEC2 ["ec2", "unknown_service"]).total_estimated_time = 180 ∧
    (get_workflow_plan regEC2 ["ec2", "unknown_service"]).complexity_score = 8 :=
  ⟨by decide, by decide, by decide⟩

theorem validation_fold_eq (r : ServiceRegistry) (cfgs : Dict Config) :
    List.foldl (fun acc q => acc ++ validate_service_config r q.1 q.2) [] cfgs
      = (cfgs.map (fun q => validate_service_config r q.1 q.2)).flatten := by
  rw [foldl_append_join (fun q : String × Config => validate_service_config r q.1 q.2) cfgs []]
  rfl

theorem validation_fold_ne_nil (r : ServiceRegistry) (cfgs : Dict Config)
    (q : String × Config) (hq : q ∈ cfgs)
    (hne : validate_service_config r q.1 q.2 ≠ []) :
    List.foldl (fun acc q => acc ++ validate_service_config r q.1 q.2) [] cfgs ≠ [] := by
  rw [validation_fold_eq]
  obtain ⟨e, he⟩ := List.exists_mem_of_ne_nil _ hne
  have hm : e ∈ (cfgs.map (fun q => validate_service_config r q.1 q.2)).flatten :=
    List.mem_flatten.mpr ⟨_, List.mem_map_of_mem _ hq, he⟩
  exact List.ne_nil_of_mem hm

/-- When validation fails, the run reports an error with no service lists:
the plan is never stored, `initialize_browser` and `process_single_service`
each trip over the missing `service_order` key, and the final state routes
to `handle_error`. (The user-visible message is, in fact, the last
KeyError, not the validation message it overwrote.) -/
theorem run_estimation_validation_error (r : ServiceRegistry)
    (executor : String → AgentOutcome) (browserOk finalizeOk : Bool) (cfgs : Dict Config)
    (herr : List.foldl (fun acc q => acc ++ validate_service_config r q.1 q.2) [] cfgs ≠ []) :
    run_estimation r executor browserOk finalizeOk cfgs
      = { status := "error",
          error := some "Service processing error: KeyError service_order",
          services_added := [], services_failed := [] } := by
  have h1 : plan_workflow r ⟨cfgs, none, 0, [], [], "", []⟩
      = { services_config := cfgs, workflow_plan := none, current_service_index := 0,
          completed_services := [], failed_services := [],
          error_message := "Configuration validation failed: "
            ++ String.intercalate "; "
              (List.foldl (fun acc q => acc ++ validate_service_config r q.1 q.2) [] cfgs),
          log := [] } := by
    unfold plan_workflow
    rw [if_pos herr]
  have h2 : orch_final r executor browserOk cfgs
      = { services_config := cfgs, workflow_plan := none, current_service_index := 0,
          completed_services := [], failed_services := [],
          error_message := "Service processing error: KeyError service_order", log := [] } := by
    unfold orch_final
    simp only [h1]
    rfl
  unfold run_estimation
  simp only [h2]
  rfl

/-- C1 (amended): `get_workflow_plan` itself never fails and returns every
requested key — unknown keys included — in `service_order`; an unknown key
is instead reported by validation (`validate_service_config` yields an
"Unknown service type" error), and the orchestrator turns any validation
error into an error status before any service executes, with empty
added/failed lists. -/
theorem plan_never_fails_validation_catches_unknown :
    (∀ (r : ServiceRegistry) (keys : List String) (k : String), k ∈ keys →
      k ∈ (get_workflow_plan r keys).service_order) ∧
    (∀ (r : ServiceRegistry) (k : String) (cfg : Config), get_handler r k = none →
      validate_service_config r k cfg = ["Unknown service type: " ++ k]) ∧
    (∀ (r : ServiceRegistry) (executor : String → AgentOutcome) (browserOk finalizeOk : Bool)
        (cfgs : Dict Config) (k : String) (cfg : Config), (k, cfg) ∈ cfgs →
      get_handler r k = none →
      (run_estimation r executor browserOk finalizeOk cfgs).status = "error" ∧
      (run_estimation r executor browserOk finalizeOk cfgs).services_added = [] ∧
      (run_estimation r executor browserOk finalizeOk cfgs).services_failed = []) := by
  refine ⟨?_, ?_, ?_⟩
  · intro r keys k hk
    exact mem_foldl_dedup keys _ k (Or.inr hk)
  · intro r k cfg hh
    unfold validate_service_config
    rw [hh]
  · intro r executor bOk fOk cfgs k cfg hq hh
    have hne : validate_service_config r k cfg ≠ [] := by
      unfold validate_service_config
      rw [hh]
      simp
    have herr := validation_fold_ne_nil r cfgs (k, cfg) hq hne
    rw [run_estimation_validation_error r executor bOk fOk cfgs herr]
    exact ⟨rfl, rfl, rfl⟩

/-- Witness for `plan_never_fails_validation_catches_unknown` on the
concrete registry with only EC2 registered and an unknown key. -/
theorem plan_never_fails_validation_catches_unknown_witness :
    "unknown_service" ∈ (get_workflow_plan regEC2 ["ec2", "unknown_service"]).service_order ∧
    validate_service_config regEC2 "unknown_service" []
      = ["Unknown service type: " ++ "unknown_service"] ∧
    ((run_estimation regEC2 (fun _ => .done) true true
        [("ec2", ec2_ok_config), ("unknown_service", [])]).status = "error" ∧
      (run_estimation regEC2 (fun _ => .done) true true
        [("ec2", ec2_ok_config), ("unknown_service", [])]).services_added = [] ∧
      (run_estimation regEC2 (fun _ => .done) true true
        [("ec2", ec2_ok_config), ("unknown_service", [])]).services_failed = []) :=
  ⟨plan_never_fails_validation_catches_unknown.1 regEC2 ["ec2", "unknown_service"]
      "unknown_service" (by decide),
   plan_never_fails_validation_catches_unknown.2.1 regEC2 "unknown_service" [] rfl,
   plan_never_fails_validation_catches_unknown.2.2 regEC2 (fun _ => .done) true true
      [("ec2", ec2_ok_config), ("unknown_service", [])] "unknown_service" [] (by decide) rfl⟩

/-! ## Orchestrator execution loop (claims C4, C5, C10) -/

theorem execute_service_workflow_fst (h : Handler) (t : String) (o : AgentOutcome) :
    (execute_service_workflow h t o).1 = agentOk o := by
  cases o <;> rfl

theorem logFor_eq (r : ServiceRegistry) (executor : String → AgentOutcome) (t : String)
    (h : Handler) (hh : get_handler r t = some h) :
    logFor r executor t = (execute_service_workflow h t (executor t)).2 := by
  unfold logFor
  rw [hh]

theorem dget_isSome_of_dmem {α : Type} (d : Dict α) (k : String) (h : dmem d k = true) :
    (dget d k).isSome := by
  obtain ⟨p, hp, _⟩ := dmem_find? d k h
  unfold dget
  rw [hp]
  rfl

/-- `process_single_service` at an in-range index whose service has a
config entry and a handler: the service is appended to the completed or
failed list according to the executor outcome, the reason lines are
logged, and the index advances. -/
theorem process_single_service_step (r : ServiceRegistry)
    (executor : String → AgentOutcome) (st : OrchState) (wp : WorkflowPlan) (s : String)
    (h : Handler) (hwp : st.workflow_plan = some wp)
    (hlt : st.current_service_index < wp.service_order.length)
    (hs : wp.service_order.getD st.current_service_index "" = s)
    (hcfg : (dget st.services_config s).isSome)
    (hh : get_handler r s = some h) :
    process_single_service r executor st
      = if agentOk (executor s) then
          { st with
            completed_services := st.completed_services ++ [s]
            current_service_index := st.current_service_index + 1
            log := st.log ++ logFor r executor s }
        else
          { st with
            failed_services := st.failed_services ++ [s]
            current_service_index := st.current_service_index + 1
            log := st.log ++ logFor r executor s } := by
  obtain ⟨cfg, hcfg'⟩ := Option.isSome_iff_exists.mp hcfg
  unfold process_single_service
  simp only [hwp]
  rw [if_neg (not_le.mpr hlt), hs]
  simp only [hcfg', hh]
  rw [execute_service_workflow_fst, ← logFor_eq r executor s h hh]

/-- The `process_service` loop from any in-range index: when every planned
service has a config entry and a handler, the loop completes without
error, classifying each remaining service by its executor outcome and
logging the failure reasons. -/
theorem orch_loop_run (r : ServiceRegistry) (executor : String → AgentOutcome)
    (wp : WorkflowPlan) :
    ∀ (fuel : Nat) (st : OrchState),
      st.workflow_plan = some wp → st.error_message = "" →
      st.current_service_index ≤ wp.service_order.length →
      (∀ s ∈ wp.service_order, dmem st.services_config s = true ∧ (get_handler r s).isSome) →
      wp.service_order.length - st.current_service_index < fuel →
      orch_loop r executor fuel st
        = { st with
            completed_services := st.completed_services
              ++ (wp.service_order.drop st.current_service_index).filter
                  (fun s => agentOk (executor s))
            failed_services := st.failed_services
              ++ (wp.service_order.drop st.current_service_index).filter
                  (fun s => !(agentOk (executor s)))
            current_service_index := wp.service_order.length
            log := st.log
              ++ ((wp.service_order.drop st.current_service_index).map
                  (logFor r executor)).flatten } := by
  intro fuel
  induction fuel with
  | zero => intro st _ _ _ _ hf; omega
  | succ n ih =>
    intro st hwp herr hle hsv hfuel
    by_cases hidx : wp.service_order.length ≤ st.current_service_index
    · have hidxe : st.current_service_index = wp.service_order.length :=
        le_antisymm hle hidx
      have hdrop : wp.service_order.drop st.current_service_index = [] := by
        rw [hidxe]
        exact List.drop_length _
      have hproc : process_single_service r executor st = st := by
        unfold process_single_service
        simp only [hwp]
        rw [if_pos hidx]
      simp only [orch_loop, hproc, herr, orchTotal, hwp]
      rw [if_neg (by decide), if_pos hidx, hdrop]
      simp only [List.filter_nil, List.append_nil, List.map_nil, List.flatten_nil]
      rw [← hidxe, ← hwp, ← herr]
    · have hlt : st.current_service_index < wp.service_order.length := not_le.mp hidx
      have hs : wp.service_order.getD st.current_service_index ""
          = wp.service_order[st.current_service_index] := List.getD_eq_getElem _ _ hlt
      have hmem : wp.service_order[st.current_service_index] ∈ wp.service_order :=
        List.getElem_mem hlt
      obtain ⟨hdm, hhs⟩ := hsv _ hmem
      obtain ⟨h, hh⟩ := Option.isSome_iff_exists.mp hhs
      have hdropc : wp.service_order.drop st.current_service_index
          = wp.service_order[st.current_service_index]
            :: wp.service_order.drop (st.current_service_index + 1) :=
        List.drop_eq_getElem_cons hlt
      have hproc := process_single_service_step r executor st wp
        (wp.service_order[st.current_service_index]) h hwp hlt hs
        (dget_isSome_of_dmem _ _ hdm) hh
      by_cases hok : agentOk (executor (wp.service_order[st.current_service_index])) = true
      · rw [if_pos hok] at hproc
        simp only [orch_loop, hproc, herr, orchTotal, hwp]
        rw [if_neg (by decide)]
        by_cases hend : wp.service_order.length ≤ st.current_service_index + 1
        · have hidxe : st.current_service_index + 1 = wp.service_order.length :=
            le_antisymm hlt hend
          have hdrop2 : wp.service_order.drop (st.current_service_index + 1) = [] := by
            rw [hidxe]
            exact List.drop_length _
          rw [if_pos hend, hdropc, hdrop2]
          simp [hok, hidxe]
        · rw [if_neg hend]
          rw [ih _ (by simp [hwp]) (by simp) (not_le.mp hend).le
            (by simpa using hsv)
            (by show wp.service_order.length - (st.current_service_index + 1) < n; omega)]
          rw [hdropc, List.filter_cons, List.filter_cons, List.map_cons, List.flatten_cons]
          rw [if_pos hok, if_neg (by simp [hok])]
          simp [List.append_assoc]
      · have hok2 : agentOk (executor (wp.service_order[st.current_service_index])) = false := by
          simpa using hok
        rw [if_neg hok] at hproc
        simp only [orch_loop, hproc, herr, orchTotal, hwp]
        rw [if_neg (by decide)]
        by_cases hend : wp.service_order.length ≤ st.current_service_index + 1
        · have hidxe : st.current_service_index + 1 = wp.service_order.length :=
            le_antisymm hlt hend
          have hdrop2 : wp.service_order.drop (st.current_service_index + 1) = [] := by
            rw [hidxe]
            exact List.drop_length _
          rw [if_pos hend, hdropc, hdrop2]
          simp [hok2, hidxe]
        · rw [if_neg hend]
          rw [ih _ (by simp [hwp]) (by simp) (not_le.mp hend).le
            (by simpa using hsv)
            (by show wp.service_order.length - (st.current_service_index + 1) < n; omega)]
          rw [hdropc, List.filter_cons, List.filter_cons, List.map_cons, List.flatten_cons]
          rw [if_neg (by simp [hok2]), if_pos (by simp [hok2])]
          simp [List.append_assoc]

theorem plan_workflow_ok (r : ServiceRegistry) (cfgs : Dict Config)
    (hval : List.foldl (fun acc q => acc ++ validate_service_config r q.1 q.2) [] cfgs = []) :
    plan_workflow r ⟨cfgs, none, 0, [], [], "", []⟩
      = { services_config := cfgs
          workflow_plan := some (get_workflow_plan r (List.map Prod.fst cfgs))
          current_service_index := 0
          completed_services := []
          failed_services := []
          error_message := ""
          log := [] } := by
  unfold plan_workflow
  rw [if_neg (by rw [hval]; simp)]

/-- With validation passing, a working browser, and every planned service
backed by a config entry and a handler, the loop completes with no error,
classifying every planned service by its executor outcome. -/
theorem orch_final_spec (r : ServiceRegistry) (executor : String → AgentOutcome)
    (cfgs : Dict Config)
    (hval : List.foldl (fun acc q => acc ++ validate_service_config r q.1 q.2) [] cfgs = [])
    (hsv : ∀ s ∈ (get_workflow_plan r (List.map Prod.fst cfgs)).service_order,
      dmem cfgs s = true ∧ (get_handler r s).isSome) :
    orch_final r executor true cfgs
      = { services_config := cfgs
          workflow_plan := some (get_workflow_plan r (List.map Prod.fst cfgs))
          current_service_index :=
            (get_workflow_plan r (List.map Prod.fst cfgs)).service_order.length
          completed_services :=
            (get_workflow_plan r (List.map Prod.fst cfgs)).service_order.filter
              (fun s => agentOk (executor s))
          failed_services :=
            (get_workflow_plan r (List.map Prod.fst cfgs)).service_order.filter
              (fun s => !(agentOk (executor s)))
          error_message := ""
          log := ((get_workflow_plan r (List.map Prod.fst cfgs)).service_order.map
            (logFor r executor)).flatten } := by
  unfold orch_final
  simp only [plan_workflow_ok r cfgs hval]
  rw [orch_loop_run r executor (get_workflow_plan r (List.map Prod.fst cfgs)) _ _
    rfl rfl (Nat.zero_le _) hsv (by simp [orchTotal, init_browser])]
  simp [init_browser]

/-- A run with validation passing, all planned services resolvable, a
working browser, and a working finalization step reports `"success"` with
the executor-outcome breakdown. -/
theorem run_estimation_happy (r : ServiceRegistry) (executor : String → AgentOutcome)
    (cfgs : Dict Config)
    (hval : List.foldl (fun acc q => acc ++ validate_service_config r q.1 q.2) [] cfgs = [])
    (hsv : ∀ s ∈ (get_workflow_plan r (List.map Prod.fst cfgs)).service_order,
      dmem cfgs s = true ∧ (get_handler r s).isSome) :
    run_estimation r executor true true cfgs
      = { status := "success", error := none
          services_added :=
            (get_workflow_plan r (List.map Prod.fst cfgs)).service_order.filter
              (fun s => agentOk (executor s))
          services_failed :=
            (get_workflow_plan r (List.map Prod.fst cfgs)).service_order.filter
              (fun s => !(agentOk (executor s))) } := by
  unfold run_estimation
  simp only [orch_final_spec r executor cfgs hval hsv]
  rfl

/-- The same run with the finalization browser step failing reports
`"error"` even though every service was executed. -/
theorem run_estimation_finalize_fail (r : ServiceRegistry)
    (executor : String → AgentOutcome) (cfgs : Dict Config)
    (hval : List.foldl (fun acc q => acc ++ validate_service_config r q.1 q.2) [] cfgs = [])
    (hsv : ∀ s ∈ (get_workflow_plan r (List.map Prod.fst cfgs)).service_order,
      dmem cfgs s = true ∧ (get_handler r s).isSome) :
    (run_estimation r executor true false cfgs).status = "error" := by
  unfold run_estimation
  simp only [orch_final_spec r executor cfgs hval hsv]
  rfl

/-- C4 counterexample: `{ec2, rds}` with valid configs where the executor
times out only for `rds` — one service succeeds and one fails, yet
`run_estimation` reports `status "success"` (with the failure listed in
`services_failed`), not `"partial"`. -/
theorem run_estimation_partial_counterexample :
    run_estimation regEC2RDS
        (fun s => if s == "rds" then .timedOut else .done) true true
        [("ec2", ec2_ok_config), ("rds", rds_ok_config)]
      = { status := "success", error := none,
          services_added := ["ec2"], services_failed := ["rds"] } ∧
    (run_estimation regEC2RDS
        (fun s => if s == "rds" then .timedOut else .done) true true
        [("ec2", ec2_ok_config), ("rds", rds_ok_config)]).status ≠ "partial" :=
  ⟨by decide, by decide⟩

/-- C4 (amended): `run_estimation` only ever returns `"success"` or
`"error"` — there is no `"partial"` status. Runs in which some but not
all services succeed report `"success"` with the breakdown in
`services_added` / `services_failed`; and `"error"` is not reserved for
pre-execution failures: a finalization failure after all services
executed also yields `"error"`. -/
theorem run_estimation_status_shape :
    (∀ (r : ServiceRegistry) (executor : String → AgentOutcome)
        (browserOk finalizeOk : Bool) (cfgs : Dict Config),
      (run_estimation r executor browserOk finalizeOk cfgs).status = "success" ∨
      (run_estimation r executor browserOk finalizeOk cfgs).status = "error") ∧
    (∀ (r : ServiceRegistry) (executor : String → AgentOutcome) (cfgs : Dict Config),
      List.foldl (fun acc q => acc ++ validate_service_config r q.1 q.2) [] cfgs = [] →
      (∀ s ∈ (get_workflow_plan r (List.map Prod.fst cfgs)).service_order,
        dmem cfgs s = true ∧ (get_handler r s).isSome) →
      run_estimation r executor true true cfgs
        = { status := "success", error := none
            services_added :=
              (get_workflow_plan r (List.map Prod.fst cfgs)).service_order.filter
                (fun s => agentOk (executor s))
            services_failed :=
              (get_workflow_plan r (List.map Prod.fst cfgs)).service_order.filter
                (fun s => !(agentOk (executor s))) }) ∧
    (∀ (r : ServiceRegistry) (executor : String → AgentOutcome) (cfgs : Dict Config),
      List.foldl (fun acc q => acc ++ validate_service_config r q.1 q.2) [] cfgs = [] →
      (∀ s ∈ (get_workflow_plan r (List.map Prod.fst cfgs)).service_order,
        dmem cfgs s = true ∧ (get_handler r s).isSome) →
      (run_estimation r executor true false cfgs).status = "error") := by
  refine ⟨?_, ?_, ?_⟩
  · intro r executor bOk fOk cfgs
    simp only [run_estimation]
    split
    · split
      · right; rfl
      · left; rfl
    · split
      · right; rfl
      · left; rfl
  · intro r executor cfgs hval hsv
    exact run_estimation_happy r executor cfgs hval hsv
  · intro r executor cfgs hval hsv
    exact run_estimation_finalize_fail r executor cfgs hval hsv

/-- Witness for `run_estimation_status_shape` on the concrete
one-succeeds-one-times-out scenario (and the finalization-failure
variant). -/
theorem run_estimation_status_shape_witness :
    ((run_estimation regEC2RDS (fun s => if s == "rds" then .timedOut else .done) true true
        [("ec2", ec2_ok_config), ("rds", rds_ok_config)]).status = "success" ∨
      (run_estimation regEC2RDS (fun s => if s == "rds" then .timedOut else .done) true true
        [("ec2", ec2_ok_config), ("rds", rds_ok_config)]).status = "error") ∧
    run_estimation regEC2RDS (fun s => if s == "rds" then .timedOut else .done) true true
        [("ec2", ec2_ok_config), ("rds", rds_ok_config)]
      = { status := "success", error := none
          services_added :=
            (get_workflow_plan regEC2RDS
              (List.map Prod.fst [("ec2", ec2_ok_config), ("rds", rds_ok_config)])).service_order.filter
              (fun s => agentOk ((fun s => if s == "rds" then .timedOut else .done) s))
          services_failed :=
            (get_workflow_plan regEC2RDS
              (List.map Prod.fst [("ec2", ec2_ok_config), ("rds", rds_ok_config)])).service_order.filter
              (fun s => !(agentOk ((fun s => if s == "rds" then .timedOut else .done) s))) } ∧
    (run_estimation regEC2RDS (fun s => if s == "rds" then .timedOut else .done) true false
        [("ec2", ec2_ok_config), ("rds", rds_ok_config)]).status = "error" :=
  ⟨run_estimation_status_shape.1 regEC2RDS _ true true _,
   run_estimation_status_shape.2.1 regEC2RDS _ _ (by decide) (by decide),
   run_estimation_status_shape.2.2 regEC2RDS _ _ (by decide) (by decide)⟩

/-! ## Workflow addition loop (claim C5) -/

theorem add_single_service_step (adder : String → AddOutcome) (st : WfState)
    (hlt : st.current_service_index < st.services_to_add.length) :
    add_single_service adder st
      = if addOk (adder (st.services_to_add.getD st.current_service_index "")) then
          { st with
            added_services := st.added_services
              ++ [st.services_to_add.getD st.current_service_index ""]
            current_service_index := st.current_service_index + 1 }
        else
          { st with
            failed_services := st.failed_services
              ++ [st.services_to_add.getD st.current_service_index ""]
            current_service_index := st.current_service_index + 1 } := by
  unfold add_single_service
  rw [if_neg (not_le.mpr hlt)]
  cases h : adder (st.services_to_add.getD st.current_service_index "") <;>
    simp only [h] <;> rfl

/-- The `add_single_service` loop: every remaining service gets an
attempt, classified by the `add_service_by_type` outcome (`False`
returns and exceptions both land in `failed_services`); the loop never
aborts. -/
theorem wf_loop_run (adder : String → AddOutcome) :
    ∀ (fuel : Nat) (st : WfState),
      st.current_service_index ≤ st.services_to_add.length →
      st.services_to_add.length - st.current_service_index < fuel →
      wf_loop adder fuel st
        = { st with
            added_services := st.added_services
              ++ (st.services_to_add.drop st.current_service_index).filter
                  (fun t => addOk (adder t))
            failed_services := st.failed_services
              ++ (st.services_to_add.drop st.current_service_index).filter
                  (fun t => !(addOk (adder t)))
            current_service_index := st.services_to_add.length } := by
  intro fuel
  induction fuel with
  | zero => intro st _ hf; omega
  | succ n ih =>
    intro st hle hfuel
    by_cases hidx : st.services_to_add.length ≤ st.current_service_index
    · have hidxe : st.current_service_index = st.services_to_add.length :=
        le_antisymm hle hidx
      have hdrop : st.services_to_add.drop st.current_service_index = [] := by
        rw [hidxe]
        exact List.drop_length _
      have hstep : add_single_service adder st = st := by
        unfold add_single_service
        rw [if_pos hidx]
      simp only [wf_loop, hstep]
      rw [if_neg (by omega), hdrop]
      simp only [List.filter_nil, List.append_nil]
      rw [← hidxe]
    · have hlt : st.current_service_index < st.services_to_add.length := not_le.mp hidx
      have hs : st.services_to_add.getD st.current_service_index ""
          = st.services_to_add[st.current_service_index] := List.getD_eq_getElem _ _ hlt
      have hdropc : st.services_to_add.drop st.current_service_index
          = st.services_to_add[st.current_service_index]
            :: st.services_to_add.drop (st.current_service_index + 1) :=
        List.drop_eq_getElem_cons hlt
      have hstep := add_single_service_step adder st hlt
      rw [hs] at hstep
      by_cases hok : addOk (adder (st.services_to_add[st.current_service_index])) = true
      · rw [if_pos hok] at hstep
        simp only [wf_loop, hstep]
        by_cases hend : st.current_service_index + 1 < st.services_to_add.length
        · rw [if_pos hend]
          rw [ih _ hend.le (by show st.services_to_add.length
              - (st.current_service_index + 1) < n; omega)]
          rw [hdropc, List.filter_cons, List.filter_cons]
          rw [if_pos hok, if_neg (by simp [hok])]
          simp [List.append_assoc]
        · have hidxe : st.current_service_index + 1 = st.services_to_add.length := by omega
          have hdrop2 : st.services_to_add.drop (st.current_service_index + 1) = [] := by
            rw [hidxe]
            exact List.drop_length _
          rw [if_neg hend, hdropc, hdrop2]
          simp [hok, hidxe]
      · have hok2 : addOk (adder (st.services_to_add[st.current_service_index])) = false := by
          simpa using hok
        rw [if_neg hok] at hstep
        simp only [wf_loop, hstep]
        by_cases hend : st.current_service_index + 1 < st.services_to_add.length
        · rw [if_pos hend]
          rw [ih _ hend.le (by show st.services_to_add.length
              - (st.current_service_index + 1) < n; omega)]
          rw [hdropc, List.filter_cons, List.filter_cons]
          rw [if_neg (by simp [hok2]), if_pos (by simp [hok2])]
          simp [List.append_assoc]
        · have hidxe : st.current_service_index + 1 = st.services_to_add.length := by omega
          have hdrop2 : st.services_to_add.drop (st.current_service_index + 1) = [] := by
            rw [hidxe]
            exact List.drop_length _
          rw [if_neg hend, hdropc, hdrop2]
          simp [hok2, hidxe]

/-- `run_estimation` of the workflow from the post-validation point:
always `status "success"` with the outcome breakdown over the prepared
queue. -/
theorem wf_run_spec (adder : String → AddOutcome) (parsed : Dict Config) :
    wf_run adder parsed
      = { status := "success", error := none
          services_added := (prepare_services_queue parsed).filter
            (fun t => addOk (adder t))
          services_failed := (prepare_services_queue parsed).filter
            (fun t => !(addOk (adder t))) } := by
  simp only [wf_run]
  rw [wf_loop_run adder _ _ (Nat.zero_le _)
    (by show (prepare_services_queue parsed).length - 0 < (prepare_services_queue parsed).length + 1
        omega)]
  rfl

/-- C5: a per-service failure never aborts the run. In the workflow
loop, a service whose `add_service_by_type` call returns `False` (failure
signal or internal timeout) or raises is recorded in `services_failed`,
every later position still gets an attempt (ending in added or failed),
and the run completes with a `"success"` breakdown. In the orchestrator,
a service whose browser run times out or raises is recorded in
`failed_services` with the captured reason lines in the log, later
positions are still attempted, and the run completes with the breakdown. -/
theorem service_failure_is_isolated :
    (∀ (adder : String → AddOutcome) (parsed : Dict Config) (i : Nat) (t : String),
      (prepare_services_queue parsed)[i]? = some t →
      addOk (adder t) = false →
      t ∈ (wf_run adder parsed).services_failed ∧
      (wf_run adder parsed).status = "success" ∧
      (∀ (j : Nat) (u : String), i < j → (prepare_services_queue parsed)[j]? = some u →
        u ∈ (wf_run adder parsed).services_added ∨
        u ∈ (wf_run adder parsed).services_failed)) ∧
    (∀ (r : ServiceRegistry) (executor : String → AgentOutcome) (cfgs : Dict Config)
        (i : Nat) (t : String),
      List.foldl (fun acc q => acc ++ validate_service_config r q.1 q.2) [] cfgs = [] →
      (∀ s ∈ (get_workflow_plan r (List.map Prod.fst cfgs)).service_order,
        dmem cfgs s = true ∧ (get_handler r s).isSome) →
      (get_workflow_plan r (List.map Prod.fst cfgs)).service_order[i]? = some t →
      agentOk (executor t) = false →
      t ∈ (orch_final r executor true cfgs).failed_services ∧
      (∀ msg ∈ logFor r executor t, msg ∈ (orch_final r executor true cfgs).log) ∧
      (run_estimation r executor true true cfgs).status = "success" ∧
      t ∈ (run_estimation r executor true true cfgs).services_failed ∧
      (∀ (j : Nat) (u : String), i < j →
        (get_workflow_plan r (List.map Prod.fst cfgs)).service_order[j]? = some u →
        u ∈ (run_estimation r executor true true cfgs).services_added ∨
        u ∈ (run_estimation r executor true true cfgs).services_failed)) := by
  constructor
  · intro adder parsed i t hget hfail
    rw [wf_run_spec]
    refine ⟨?_, rfl, ?_⟩
    · exact List.mem_filter.mpr ⟨List.getElem?_mem hget, by simp [hfail]⟩
    · intro j u _ hj
      have hu : u ∈ prepare_services_queue parsed := List.getElem?_mem hj
      by_cases hok : addOk (adder u) = true
      · exact Or.inl (List.mem_filter.mpr ⟨hu, hok⟩)
      · exact Or.inr (List.mem_filter.mpr ⟨hu, by simp [by simpa using hok]⟩)
  · intro r executor cfgs i t hval hsv hget hfail
    have hmem : t ∈ (get_workflow_plan r (List.map Prod.fst cfgs)).service_order :=
      List.getElem?_mem hget
    rw [orch_final_spec r executor cfgs hval hsv, run_estimation_happy r executor cfgs hval hsv]
    refine ⟨?_, ?_, rfl, ?_, ?_⟩
    · exact List.mem_filter.mpr ⟨hmem, by simp [hfail]⟩
    · intro msg hmsg
      exact List.mem_flatten.mpr ⟨logFor r executor t, List.mem_map_of_mem _ hmem, hmsg⟩
    · exact List.mem_filter.mpr ⟨hmem, by simp [hfail]⟩
    · intro j u _ hj
      have hu : u ∈ (get_workflow_plan r (List.map Prod.fst cfgs)).service_order :=
        List.getElem?_mem hj
      by_cases hok : agentOk (executor u) = true
      · exact Or.inl (List.mem_filter.mpr ⟨hu, hok⟩)
      · exact Or.inr (List.mem_filter.mpr ⟨hu, by simp [hok]⟩)

/-- Witness for `service_failure_is_isolated`: a two-service run in each
model where the `rds` executor call fails at position 1. -/
theorem service_failure_is_isolated_witness :
    ("rds" ∈ (wf_run (fun s => if s == "rds" then .failed else .ok)
        [("rds", rds_ok_config), ("ec2", ec2_ok_config)]).services_failed ∧
      (wf_run (fun s => if s == "rds" then .failed else .ok)
        [("rds", rds_ok_config), ("ec2", ec2_ok_config)]).status = "success" ∧
      (∀ (j : Nat) (u : String), 1 < j →
        (prepare_services_queue [("rds", rds_ok_config), ("ec2", ec2_ok_config)])[j]? = some u →
        u ∈ (wf_run (fun s => if s == "rds" then .failed else .ok)
          [("rds", rds_ok_config), ("ec2", ec2_ok_config)]).services_added ∨
        u ∈ (wf_run (fun s => if s == "rds" then .failed else .ok)
          [("rds", rds_ok_config), ("ec2", ec2_ok_config)]).services_failed)) ∧
    ("rds" ∈ (orch_final regEC2RDS (fun s => if s == "rds" then .timedOut else .done) true
        [("ec2", ec2_ok_config), ("rds", rds_ok_config)]).failed_services ∧
      (∀ msg ∈ logFor regEC2RDS (fun s => if s == "rds" then .timedOut else .done) "rds",
        msg ∈ (orch_final regEC2RDS (fun s => if s == "rds" then .timedOut else .done) true
          [("ec2", ec2_ok_config), ("rds", rds_ok_config)]).log) ∧
      (run_estimation regEC2RDS (fun s => if s == "rds" then .timedOut else .done) true true
        [("ec2", ec2_ok_config), ("rds", rds_ok_config)]).status = "success" ∧
      "rds" ∈ (run_estimation regEC2RDS (fun s => if s == "rds" then .timedOut else .done)
        true true [("ec2", ec2_ok_config), ("rds", rds_ok_config)]).services_failed ∧
      (∀ (j : Nat) (u : String), 1 < j →
        (get_workflow_plan regEC2RDS
          (List.map Prod.fst [("ec2", ec2_ok_config), ("rds", rds_ok_config)])).service_order[j]?
            = some u →
        u ∈ (run_estimation regEC2RDS (fun s => if s == "rds" then .timedOut else .done)
          true true [("ec2", ec2_ok_config), ("rds", rds_ok_config)]).services_added ∨
        u ∈ (run_estimation regEC2RDS (fun s => if s == "rds" then .timedOut else .done)
          true true [("ec2", ec2_ok_config), ("rds", rds_ok_config)]).services_failed)) :=
  ⟨service_failure_is_isolated.1 (fun s => if s == "rds" then .failed else .ok)
      [("rds", rds_ok_config), ("ec2", ec2_ok_config)] 1 "rds" (by decide) (by decide),
   service_failure_is_isolated.2 regEC2RDS (fun s => if s == "rds" then .timedOut else .done)
      [("ec2", ec2_ok_config), ("rds", rds_ok_config)] 1 "rds"
      (by decide) (by decide) (by decide) (by decide)⟩

/-! ## Claim C10: EC2 validation runs on the raw config -/

theorem cfgTruthy_eq_false_of_none (cfg : Config) (k : String) (h : dget cfg k = none) :
    cfgTruthy cfg k = false := by
  unfold cfgTruthy
  rw [h]
  rfl

theorem ec2_missing_instance_type_error (cfg : Config) (h : dget cfg "instance_type" = none) :
    "EC2: instance_type is required" ∈ ec2_validate_config cfg := by
  simp [ec2_validate_config, cfgTruthy_eq_false_of_none cfg _ h]

/-- C10: `validate_config` is applied to the raw user config, not to the
config merged with the handler defaults. A config missing
`instance_type`, `operating_system` or `region` always produces the
corresponding required-field error, even though `get_default_config`
supplies those fields and `get_service_instructions` merges them under
the user config with user values winning (the merge lookup law); and the
orchestrator turns those validation errors into an error status before
any service executes. -/
theorem ec2_validation_on_raw_config :
    (∀ cfg : Config, dget cfg "instance_type" = none →
      "EC2: instance_type is required" ∈ ec2_validate_config cfg) ∧
    (∀ cfg : Config, dget cfg "operating_system" = none →
      "EC2: operating_system is required" ∈ ec2_validate_config cfg) ∧
    (∀ cfg : Config, dget cfg "region" = none →
      "EC2: region is required" ∈ ec2_validate_config cfg) ∧
    (∀ (cfg : Config) (k : String),
      dget (dictMerge ec2_default_config cfg) k = (dget cfg k).or (dget ec2_default_config k)) ∧
    (∀ cfg : Config, dget cfg "instance_type" = none →
      dget (dictMerge ec2_default_config cfg) "instance_type" = some (.vStr "t4g.nano")) ∧
    (∀ (r : ServiceRegistry) (executor : String → AgentOutcome) (browserOk finalizeOk : Bool)
        (cfgs : Dict Config) (cfg : Config),
      ("ec2", cfg) ∈ cfgs → get_handler r "ec2" = some ec2Handler →
      dget cfg "instance_type" = none →
      (run_estimation r executor browserOk finalizeOk cfgs).status = "error" ∧
      (run_estimation r executor browserOk finalizeOk cfgs).services_added = [] ∧
      (run_estimation r executor browserOk finalizeOk cfgs).services_failed = []) := by
  refine ⟨?_, ?_, ?_, ?_, ?_, ?_⟩
  · intro cfg h
    exact ec2_missing_instance_type_error cfg h
  · intro cfg h
    simp [ec2_validate_config, cfgTruthy_eq_false_of_none cfg _ h]
  · intro cfg h
    simp [ec2_validate_config, cfgTruthy_eq_false_of_none cfg _ h]
  · intro cfg k
    exact dget_dictMerge ec2_default_config cfg k
  · intro cfg h
    rw [dget_dictMerge, h]
    rfl
  · intro r executor bOk fOk cfgs cfg hmem hh hnone
    have hne : validate_service_config r "ec2" cfg ≠ [] := by
      unfold validate_service_config
      rw [hh]
      show ec2_validate_config cfg ≠ []
      exact List.ne_nil_of_mem (ec2_missing_instance_type_error cfg hnone)
    have herr := validation_fold_ne_nil r cfgs ("ec2", cfg) hmem hne
    rw [run_estimation_validation_error r executor bOk fOk cfgs herr]
    exact ⟨rfl, rfl, rfl⟩

/-- Witness for `ec2_validation_on_raw_config` at the config
`{"quantity": 2}` of the claim, which omits all three required fields. -/
theorem ec2_validation_on_raw_config_witness :
    "EC2: instance_type is required" ∈ ec2_validate_config [("quantity", .vInt 2)] ∧
    "EC2: operating_system is required" ∈ ec2_validate_config [("quantity", .vInt 2)] ∧
    "EC2: region is required" ∈ ec2_validate_config [("quantity", .vInt 2)] ∧
    dget (dictMerge ec2_default_config [("quantity", .vInt 2)]) "instance_type"
      = some (.vStr "t4g.nano") ∧
    ((run_estimation regEC2RDS (fun _ => .done) true true
        [("ec2", [("quantity", .vInt 2)])]).status = "error" ∧
      (run_estimation regEC2RDS (fun _ => .done) true true
        [("ec2", [("quantity", .vInt 2)])]).services_added = [] ∧
      (run_estimation regEC2RDS (fun _ => .done) true true
        [("ec2", [("quantity", .vInt 2)])]).services_failed = []) :=
  ⟨ec2_validation_on_raw_config.1 [("quantity", .vInt 2)] rfl,
   ec2_validation_on_raw_config.2.1 [("quantity", .vInt 2)] rfl,
   ec2_validation_on_raw_config.2.2.1 [("quantity", .vInt 2)] rfl,
   ec2_validation_on_raw_config.2.2.2.2.1 [("quantity", .vInt 2)] rfl,
   ec2_validation_on_raw_config.2.2.2.2.2 regEC2RDS (fun _ => .done) true true
      [("ec2", [("quantity", .vInt 2)])] [("quantity", .vInt 2)] (by decide) rfl rfl⟩

end AWSCost
